import Mathlib

/-!
# Verification of the Monaco order-statistics engine

A shallow embedding of `Monaco/order_statistics.py` over exact rationals.

* Machine floats are modelled by `ℚ`; integer quantities (including values
  that Python holds as numpy floats but that are always integral, such as the
  bisection endpoints) are modelled by `ℤ`.
* `scipy.stats.binom.cdf` is modelled exactly by `binomCDF` (a finite sum of
  the binomial mass function); the standard-normal primitives
  `scipy.stats.norm.cdf` / `scipy.stats.norm.ppf` are external collaborators
  and appear as explicit function parameters `cdf` / `ppf`.
* A Python `raise` is `Except.error`, a normal `return x` is `Except.ok x`;
  the "print a diagnostic and return None" infeasibility signal is
  `Except.ok none`.  Reading a never-assigned local (what happens when an
  unrecognised `bound` string is supplied) is an `Except.error` at the point
  of first use, mirroring the interpreter.
* `bound` selectors are plain strings, as in the source.
-/

set_option maxRecDepth 8000

deriving instance DecidableEq for Except

namespace Monaco

/-- numpy-style rounding (half to even), used by `get_iP` for the middle
component of its result. -/
def npRound (q : ℚ) : ℤ :=
  if q - ⌊q⌋ < 1/2 then ⌊q⌋
  else if 1/2 < q - ⌊q⌋ then ⌊q⌋ + 1
  else if ⌊q⌋ % 2 = 0 then ⌊q⌋ else ⌊q⌋ + 1

/-- `get_iP(n, P)`: 1-based percentile index, returning
`(floor(iP), round(iP), ceil(iP))` for `iP = P*(n+1)`. -/
def get_iP (n : ℤ) (P : ℚ) : ℤ × ℤ × ℤ :=
  let iP : ℚ := P * ((n : ℚ) + 1)
  (⌊iP⌋, npRound iP, ⌈iP⌉)

/-- Binomial probability mass function `C(n,i) pⁱ (1-p)^(n-i)`. -/
def binomPMF (n i : ℕ) (p : ℚ) : ℚ :=
  (n.choose i : ℚ) * p ^ i * (1 - p) ^ (n - i)

/-- `scipy.stats.binom.cdf(x, n, p)` for an integer argument `x` (which may
be negative, in which case the result is `0`). -/
def binomCDF (x : ℤ) (n : ℕ) (p : ℚ) : ℚ :=
  ∑ i ∈ Finset.range (n + 1), if (i : ℤ) ≤ x then binomPMF n i p else 0

/-- `order_stat_var_check`: the shared input validator.  Each argument is
`none` when the corresponding keyword is not supplied.  The checks run in
source order and the first failure raises. -/
def order_stat_var_check (n l u : Option ℤ) (p : Option ℚ) (k : Option ℤ)
    (c : Option ℚ) (nmax : Option ℤ) : Except String Unit :=
  if (match n with | some v => decide (v < 1) | none => false) then
    .error "n must be >= 1"
  else if (match l with | some v => decide (v < 0) | none => false) then
    .error "l must be >= 0"
  else if (match u, n with
           | some v, some nv => decide (nv + 1 < v) | _, _ => false) then
    .error "u must be <= n+1"
  else if (match u, l with
           | some v, some lv => decide (v < lv) | _, _ => false) then
    .error "u must be >= l"
  else if (match p with
           | some v => decide (v ≤ 0 ∨ 1 ≤ v) | none => false) then
    .error "p must be in the range 0 < p < 1"
  else if (match k with | some v => decide (v < 1) | none => false) then
    .error "k must be >= 1"
  else if (match c with
           | some v => decide (v ≤ 0 ∨ 1 ≤ v) | none => false) then
    .error "c must be in the range 0 < c < 1"
  else if (match nmax with | some v => decide (v < 1) | none => false) then
    .error "nmax must be >= 1"
  else .ok ()

/-- The pure value computed by `EPYP` (difference of two binomial CDFs). -/
def EPYPval (n l u : ℤ) (p : ℚ) : ℚ :=
  binomCDF (u - 1) n.toNat p - binomCDF (l - 1) n.toNat p

/-- `EPYP(n, l, u, p)`: validates, then evaluates. -/
def EPYP (n l u : ℤ) (p : ℚ) : Except String ℚ :=
  match order_stat_var_check (some n) (some l) (some u) (some p) none none none with
  | .error e => .error e
  | .ok _ => .ok (EPYPval n l u p)

/-- The pure value computed by `EPTI`: `BinomCDF(u-l-1, n, p)`. -/
def EPTIval (n l u : ℤ) (p : ℚ) : ℚ :=
  binomCDF (u - l - 1) n.toNat p

/-- `EPTI(n, l, u, p)`: validates, then evaluates. -/
def EPTI (n l u : ℤ) (p : ℚ) : Except String ℚ :=
  match order_stat_var_check (some n) (some l) (some u) (some p) none none none with
  | .error e => .error e
  | .ok _ => .ok (EPTIval n l u p)

/-- `pct2sig(p, bound)`, parametric in the standard-normal quantile
function `ppf`.  An unrecognised `bound` falls off the end of the function
body and returns `None`. -/
def pct2sig (ppf : ℚ → ℚ) (p : ℚ) (bound : String) : Except String (Option ℚ) :=
  if p ≤ 0 ∨ 1 ≤ p then .error "p must be 0 < p < 1"
  else if bound = "2-sided" then
    if 1/2 ≤ p then .ok (some (ppf (1 - (1 - p) / 2)))
    else .ok (some (ppf (p / 2)))
  else if bound = "1-sided" then .ok (some (ppf p))
  else .ok none

/-- `sig2pct(sig, bound)`, parametric in the standard-normal CDF `cdf`.
An unrecognised `bound` leaves the local `p` unassigned and the final
`return p` raises. -/
def sig2pct (cdf : ℚ → ℚ) (sig : ℚ) (bound : String) : Except String ℚ :=
  if bound = "2-sided" then .ok (1 - (1 - cdf sig) * 2)
  else if bound = "1-sided" then .ok (cdf sig)
  else .error "UnboundLocalError: p"

/-- The lower order-statistic index selected by the tolerance-interval
solvers `order_stat_TI_n`, `order_stat_TI_p` and `order_stat_TI_c`:
`l = k` for a 2-sided bound, `l = 0` for a 1-sided bound, and unassigned
(`none`) for anything else. -/
def TI_lsel (k : ℤ) (bound : String) : Option ℤ :=
  if bound = "2-sided" then some k
  else if bound = "1-sided" then some 0
  else none

/-- The lower index used by the `order_stat_TI_k` feasibility pre-check
(`l = 1` for 2-sided, `l = 0` for 1-sided). -/
def TIk_lsel (bound : String) : Option ℤ :=
  if bound = "2-sided" then some 1
  else if bound = "1-sided" then some 0
  else none

/-- The bisection loop of `order_stat_TI_n`, with the `maxsteps = 1000`
budget as fuel; exhausting it raises, as in the source. -/
def TI_n_loop (l k : ℤ) (p c : ℚ) : ℕ → ℤ → ℤ → Except String ℤ
  | 0, _, _ => .error "could not converge in maxsteps steps"
  | fuel + 1, n0, n1 =>
    let step : ℚ := ((n1 - n0 : ℤ) : ℚ) / 2
    let ntemp : ℤ := n0 + ⌈step⌉
    if step < 1 then .ok n1
    else
      match EPTI ntemp l (ntemp + 1 - k) p with
      | .error e => .error e
      | .ok v =>
        if v ≤ c then TI_n_loop l k p c fuel ntemp n1
        else TI_n_loop l k p c fuel n0 ntemp

/-- `order_stat_TI_n(k, p, c, nmax, bound)`. -/
def order_stat_TI_n (k : ℤ) (p c : ℚ) (nmax : ℤ) (bound : String) :
    Except String (Option ℤ) :=
  match order_stat_var_check none none none (some p) (some k) (some c) (some nmax) with
  | .error e => .error e
  | .ok _ =>
    match TI_lsel k bound with
    | none => .error "UnboundLocalError: l"
    | some l =>
      match EPTI nmax l (nmax + 1 - k) p with
      | .error e => .error e
      | .ok v =>
        if v < c then .ok none
        else (TI_n_loop l k p c 1000 1 nmax).map some

/-- The bisection loop of `order_stat_TI_p`.  `lopt = none` models the
unassigned local `l` left by an unrecognised `bound`; it only raises when
the loop actually reaches the `EPTI` call. -/
def TI_p_loop (n : ℤ) (lopt : Option ℤ) (u : ℤ) (c ptol : ℚ) :
    ℕ → ℚ → ℚ → Except String ℚ
  | 0, _, _ => .error "could not converge under ptol in maxsteps steps"
  | fuel + 1, p0, p1 =>
    let step : ℚ := (p1 - p0) / 2
    let ptemp : ℚ := p0 + step
    if step ≤ ptol then .ok p1
    else
      match lopt with
      | none => .error "UnboundLocalError: l"
      | some l =>
        match EPTI n l u ptemp with
        | .error e => .error e
        | .ok v =>
          if c ≤ v then TI_p_loop n lopt u c ptol fuel ptemp p1
          else TI_p_loop n lopt u c ptol fuel p0 ptemp

/-- `order_stat_TI_p(n, k, c, ptol, bound)`. -/
def order_stat_TI_p (n k : ℤ) (c ptol : ℚ) (bound : String) : Except String ℚ :=
  match order_stat_var_check (some n) none none none (some k) (some c) none with
  | .error e => .error e
  | .ok _ => TI_p_loop n (TI_lsel k bound) (n + 1 - k) c ptol 1000 0 1

/-- The bisection loop of `order_stat_TI_k`.  The lower index is recomputed
from the bound type at every step; on exit it returns `k1 - 1`. -/
def TI_k_loop (n : ℤ) (twoSided : Bool) (p c : ℚ) : ℕ → ℤ → ℤ → Except String ℤ
  | 0, _, _ => .error "could not converge in maxsteps steps"
  | fuel + 1, k0, k1 =>
    let step : ℚ := ((k1 - k0 : ℤ) : ℚ) / 2
    let ktemp : ℤ := k0 + ⌈step⌉
    if step < 1 then .ok (k1 - 1)
    else
      let l : ℤ := if twoSided then ktemp else 0
      match EPTI n l (n + 1 - ktemp) p with
      | .error e => .error e
      | .ok v =>
        if c < v then TI_k_loop n twoSided p c fuel ktemp k1
        else TI_k_loop n twoSided p c fuel k0 ktemp

/-- `order_stat_TI_k(n, p, c, bound)`. -/
def order_stat_TI_k (n : ℤ) (p c : ℚ) (bound : String) :
    Except String (Option ℤ) :=
  match order_stat_var_check (some n) none none (some p) none (some c) none with
  | .error e => .error e
  | .ok _ =>
    match TIk_lsel bound with
    | none => .error "UnboundLocalError: l"
    | some l0 =>
      match EPTI n l0 n p with
      | .error e => .error e
      | .ok v =>
        if v < c then .ok none
        else (TI_k_loop n (bound = "2-sided") p c 1000 1 ⌈((n : ℚ)) / 2⌉).map some

/-- `order_stat_TI_c(n, k, p, bound)`: direct evaluation. -/
def order_stat_TI_c (n k : ℤ) (p : ℚ) (bound : String) : Except String ℚ :=
  match order_stat_var_check (some n) none none (some p) (some k) none none with
  | .error e => .error e
  | .ok _ =>
    match TI_lsel k bound with
    | none => .error "UnboundLocalError: l"
    | some l => EPTI n l (n + 1 - k) p

/-- The `(l, u)` index pair used by the `order_stat_P_n` search loop and by
`order_stat_P_c` (the `±k` convention), derived afresh from `get_iP`.
`none` models the unassigned locals left by an unrecognised bound. -/
def P_lu (n k : ℤ) (P : ℚ) (bound : String) : Option (ℤ × ℤ) :=
  let iPl := (get_iP n P).1
  let iPu := (get_iP n P).2.2
  if bound = "2-sided" then some (iPl - k, iPu + k)
  else if bound = "1-sided upper" then some (0, iPu + k)
  else if bound = "1-sided lower" then some (iPl - k, n + 1)
  else none

/-- The bisection loop of `order_stat_P_n`; note it returns `n0`, and the
`(l,u)` pair is re-derived at every candidate. -/
def P_n_loop (k : ℤ) (P c : ℚ) (bound : String) :
    ℕ → ℤ → ℤ → Except String (Option ℤ)
  | 0, _, _ => .error "could not converge in maxsteps steps"
  | fuel + 1, n0, n1 =>
    let step : ℚ := ((n1 - n0 : ℤ) : ℚ) / 2
    if step < 1 then .ok (some n0)
    else
      let ntemp : ℤ := n0 + ⌈step⌉
      match P_lu ntemp k P bound with
      | none => .error "UnboundLocalError: l"
      | some lu =>
        match EPYP ntemp lu.1 lu.2 P with
        | .error e => .error e
        | .ok v =>
          if c < v then P_n_loop k P c bound fuel ntemp n1
          else P_n_loop k P c bound fuel n0 ntemp

/-- The feasibility lower bound `nmin = ceil(max(k/P - 1, k/(1-P) - 1))`
computed by `order_stat_P_n`. -/
def P_n_nmin (k : ℤ) (P : ℚ) : ℤ :=
  ⌈max ((k : ℚ) / P - 1) ((k : ℚ) / (1 - P) - 1)⌉

/-- `order_stat_P_n(k, P, c, nmax, bound)`.  The pre-checks use the
`±(k-1)` index convention at `n = nmin`; the loop uses `±k`.  With an
unrecognised bound the pre-checks are skipped entirely (they live inside
the `if bound == ...` branches) and the loop raises at its first `EPYP`
call, unless it returns `nmin` immediately. -/
def order_stat_P_n (k : ℤ) (P c : ℚ) (nmax : ℤ) (bound : String) :
    Except String (Option ℤ) :=
  match order_stat_var_check none none none (some P) (some k) (some c) (some nmax) with
  | .error e => .error e
  | .ok _ =>
    let nmin := P_n_nmin k P
    let iPl := (get_iP nmin P).1
    let iPu := (get_iP nmin P).2.2
    if bound = "2-sided" then
      let l := iPl - k + 1
      let u := iPu + k - 1
      if l ≤ 0 ∨ nmax + 1 ≤ u then .ok none
      else
        match EPYP nmin l u P with
        | .error e => .error e
        | .ok v =>
          if v < c then .ok none else P_n_loop k P c bound 1000 nmin nmax
    else if bound = "1-sided upper" then
      let u := iPu + k - 1
      if nmax + 1 ≤ u then .ok none
      else
        match EPYP nmin 0 u P with
        | .error e => .error e
        | .ok v =>
          if v < c then .ok none else P_n_loop k P c bound 1000 nmin nmax
    else if bound = "1-sided lower" then
      let l := iPl - k + 1
      if l ≤ 0 then .ok none
      else
        match EPYP nmin l (nmin + 1) P with
        | .error e => .error e
        | .ok v =>
          if v < c then .ok none else P_n_loop k P c bound 1000 nmin nmax
    else P_n_loop k P c bound 1000 nmin nmax

/-- The bisection loop of `order_stat_P_k`; `iPl`, `iPu` are fixed (the
sample size does not change).  Note the branches are reversed relative to
the other loops: coverage above `c` moves the upper bracket down. -/
def P_k_loop (n iPl iPu : ℤ) (P c : ℚ) (bound : String) :
    ℕ → ℤ → ℤ → Except String ℤ
  | 0, _, _ => .error "could not converge in maxsteps steps"
  | fuel + 1, k0, k1 =>
    let step : ℚ := ((k1 - k0 : ℤ) : ℚ) / 2
    let ktemp : ℤ := k0 + ⌈step⌉
    if step < 1 then .ok k1
    else
      let lu : ℤ × ℤ :=
        if bound = "2-sided" then (iPl - ktemp, iPu + ktemp)
        else if bound = "1-sided upper" then (0, iPu + ktemp)
        else (iPl - ktemp, n + 1)
      match EPYP n lu.1 lu.2 P with
      | .error e => .error e
      | .ok v =>
        if c < v then P_k_loop n iPl iPu P c bound fuel k0 ktemp
        else P_k_loop n iPl iPu P c bound fuel ktemp k1

/-- `order_stat_P_k(n, P, c, bound)`.  With an unrecognised bound the
loop reads the never-assigned bracket `k` and raises. -/
def order_stat_P_k (n : ℤ) (P c : ℚ) (bound : String) :
    Except String (Option ℤ) :=
  match order_stat_var_check (some n) none none (some P) none (some c) none with
  | .error e => .error e
  | .ok _ =>
    let iPl := (get_iP n P).1
    let iPu := (get_iP n P).2.2
    if bound = "2-sided" then
      let k1 := min iPl (n + 1 - iPu)
      let l := iPl - k1 + 1
      let u := iPu + k1 - 1
      if l ≤ 0 ∨ n + 1 ≤ u then .ok none
      else
        match EPYP n l u P with
        | .error e => .error e
        | .ok v =>
          if v < c then .ok none
          else (P_k_loop n iPl iPu P c bound 1000 1 k1).map some
    else if bound = "1-sided upper" then
      let k1 := n + 1 - iPu
      let u := iPu + k1 - 1
      if n + 1 ≤ u then .ok none
      else
        match EPYP n 0 u P with
        | .error e => .error e
        | .ok v =>
          if v < c then .ok none
          else (P_k_loop n iPl iPu P c bound 1000 1 k1).map some
    else if bound = "1-sided lower" then
      let k1 := iPl
      let l := iPl - k1 + 1
      match EPYP n l (n + 1) P with
      | .error e => .error e
      | .ok v =>
        if v < c then .ok none
        else (P_k_loop n iPl iPu P c bound 1000 1 k1).map some
    else .error "UnboundLocalError: k"

/-- `order_stat_P_c(n, k, P, bound)`: derives `(l, u)`, raises when
`l < 0` or `u > n+1`, and otherwise evaluates `EPYP`. -/
def order_stat_P_c (n k : ℤ) (P : ℚ) (bound : String) : Except String ℚ :=
  match order_stat_var_check (some n) none none (some P) (some k) none none with
  | .error e => .error e
  | .ok _ =>
    match P_lu n k P bound with
    | none => .error "UnboundLocalError: l"
    | some lu =>
      if lu.1 < 0 ∨ n + 1 < lu.2 then
        .error "l or u are outside the valid bounds of (0, n+1)"
      else EPYP n lu.1 lu.2 P

/-- A concrete, exactly-computable model of a strictly monotone CDF-like
bijection onto (0,1) with `mcdf 0 = 1/2`, used to instantiate the abstract
standard-normal primitive in witnesses: `mcdf x = 1/2 + x/(2(1+|x|))`. -/
def mcdf (x : ℚ) : ℚ := 1/2 + x / (2 * (1 + |x|))

/-- The exact inverse of `mcdf` on (0,1), playing the role of the quantile
function in witnesses. -/
def mppf (y : ℚ) : ℚ := (2 * y - 1) / (1 - |2 * y - 1|)

example : binomCDF 1 2 (1/2) = 3/4 := by with_unfolding_all decide
example : binomCDF (-1) 5 (1/2) = 0 := by with_unfolding_all decide
example : EPTIval 2 0 2 (1/2) = 3/4 := by with_unfolding_all decide
example : order_stat_TI_n 1 (1/2) (3/4) 10 "1-sided" = .ok (some 3) := by with_unfolding_all decide
example : order_stat_TI_n 1 (1/2) (1/2) 5 "1-sided" = .ok (some 2) := by with_unfolding_all decide
example : order_stat_TI_p 1 1 (9/10) (1/4) "1-sided" = .ok (1/2) := by with_unfolding_all decide
example : order_stat_P_n 2 (1/2) (1/2) 10 "2-sided" = .ok (some 9) := by with_unfolding_all decide
example : order_stat_TI_n 1 (1/2) (3/4) 1 "1-sided" = .ok none := by with_unfolding_all decide
example : order_stat_TI_k 1 (1/2) (3/4) "1-sided" = .ok none := by with_unfolding_all decide

/-! ## Basic facts about `binomCDF` -/

theorem binomPMF_nonneg {p : ℚ} (n i : ℕ) (hp0 : 0 ≤ p) (hp1 : p ≤ 1) :
    0 ≤ binomPMF n i p := by
  unfold binomPMF
  have h1 : (0 : ℚ) ≤ (n.choose i : ℚ) := by positivity
  have h2 : (0 : ℚ) ≤ p ^ i := by positivity
  have h3 : (0 : ℚ) ≤ (1 - p) ^ (n - i) := by
    apply pow_nonneg; linarith
  exact mul_nonneg (mul_nonneg h1 h2) h3

theorem binomCDF_of_neg {x : ℤ} (n : ℕ) (p : ℚ) (h : x < 0) :
    binomCDF x n p = 0 := by
  unfold binomCDF
  apply Finset.sum_eq_zero
  intro i _
  rw [if_neg]
  omega

theorem binomCDF_total (n : ℕ) (p : ℚ) :
    ∑ i ∈ Finset.range (n + 1), binomPMF n i p = 1 := by
  have h : ((p + (1 - p)) : ℚ) ^ n = 1 := by norm_num
  rw [add_pow] at h
  rw [← h]
  apply Finset.sum_congr rfl
  intro i _
  unfold binomPMF
  ring

theorem binomCDF_of_ge {x : ℤ} {n : ℕ} (p : ℚ) (h : (n : ℤ) ≤ x) :
    binomCDF x n p = 1 := by
  unfold binomCDF
  rw [← binomCDF_total n p]
  apply Finset.sum_congr rfl
  intro i hi
  rw [Finset.mem_range] at hi
  rw [if_pos (by omega)]

theorem binomCDF_mono_x {x y : ℤ} (n : ℕ) {p : ℚ} (hp0 : 0 ≤ p) (hp1 : p ≤ 1)
    (hxy : x ≤ y) : binomCDF x n p ≤ binomCDF y n p := by
  unfold binomCDF
  apply Finset.sum_le_sum
  intro i _
  by_cases h : (i : ℤ) ≤ x
  · rw [if_pos h, if_pos (le_trans h hxy)]
  · rw [if_neg h]
    by_cases h2 : (i : ℤ) ≤ y
    · rw [if_pos h2]; exact binomPMF_nonneg n i hp0 hp1
    · rw [if_neg h2]

theorem binomCDF_succ (x : ℤ) (n : ℕ) (p : ℚ) :
    binomCDF x (n + 1) p = p * binomCDF (x - 1) n p + (1 - p) * binomCDF x n p := by
  have hL :
      binomCDF x (n + 1) p =
        (∑ i ∈ Finset.range (n + 1),
            p * (if (i : ℤ) ≤ x - 1 then binomPMF n i p else 0)) +
          ((∑ i ∈ Finset.range n,
              if ((i : ℤ) + 1) ≤ x then
                (n.choose (i + 1) : ℚ) * p ^ (i + 1) * (1 - p) ^ (n - i)
              else 0) +
            (if (0 : ℤ) ≤ x then (1 - p) ^ (n + 1) else 0)) := by
    unfold binomCDF
    rw [Finset.sum_range_succ'
      (fun i => if (i : ℤ) ≤ x then binomPMF (n + 1) i p else 0) (n + 1)]
    have hsplit : ∀ i ∈ Finset.range (n + 1),
        (if ((i + 1 : ℕ) : ℤ) ≤ x then binomPMF (n + 1) (i + 1) p else 0) =
          (p * (if (i : ℤ) ≤ x - 1 then binomPMF n i p else 0)) +
            (if ((i : ℤ) + 1) ≤ x then
              (n.choose (i + 1) : ℚ) * p ^ (i + 1) * (1 - p) ^ (n - i)
            else 0) := by
      intro i _
      by_cases h : ((i : ℤ) + 1) ≤ x
      · rw [if_pos (by push_cast; omega), if_pos (by omega), if_pos h]
        unfold binomPMF
        rw [Nat.choose_succ_succ, Nat.succ_sub_succ]
        push_cast
        ring
      · rw [if_neg (by push_cast; omega), if_neg (by omega), if_neg h]
        ring
    rw [Finset.sum_congr rfl hsplit, Finset.sum_add_distrib]
    have hlast :
        (∑ i ∈ Finset.range (n + 1),
          if ((i : ℤ) + 1) ≤ x then
            (n.choose (i + 1) : ℚ) * p ^ (i + 1) * (1 - p) ^ (n - i)
          else 0) =
        (∑ i ∈ Finset.range n,
          if ((i : ℤ) + 1) ≤ x then
            (n.choose (i + 1) : ℚ) * p ^ (i + 1) * (1 - p) ^ (n - i)
          else 0) := by
      rw [Finset.sum_range_succ]
      have : (n.choose (n + 1) : ℚ) = 0 := by
        rw [Nat.choose_eq_zero_of_lt (by omega)]; norm_num
      rw [this]
      simp
    rw [hlast]
    have hzero :
        (if ((0 : ℕ) : ℤ) ≤ x then binomPMF (n + 1) 0 p else 0) =
          (if (0 : ℤ) ≤ x then (1 - p) ^ (n + 1) else 0) := by
      unfold binomPMF
      simp
    rw [hzero]
    ring
  have hR2 :
      (1 - p) * binomCDF x n p =
        (∑ i ∈ Finset.range n,
            if ((i : ℤ) + 1) ≤ x then
              (n.choose (i + 1) : ℚ) * p ^ (i + 1) * (1 - p) ^ (n - i)
            else 0) +
          (if (0 : ℤ) ≤ x then (1 - p) ^ (n + 1) else 0) := by
    unfold binomCDF
    rw [Finset.mul_sum]
    rw [Finset.sum_range_succ'
      (fun i => (1 - p) * if (i : ℤ) ≤ x then binomPMF n i p else 0) n]
    have hmid : ∀ i ∈ Finset.range n,
        ((1 - p) * if ((i + 1 : ℕ) : ℤ) ≤ x then binomPMF n (i + 1) p else 0) =
          (if ((i : ℤ) + 1) ≤ x then
            (n.choose (i + 1) : ℚ) * p ^ (i + 1) * (1 - p) ^ (n - i)
          else 0) := by
      intro i hi
      rw [Finset.mem_range] at hi
      by_cases h : ((i : ℤ) + 1) ≤ x
      · rw [if_pos (by push_cast; omega), if_pos h]
        unfold binomPMF
        have hsub : n - i = (n - (i + 1)) + 1 := by omega
        rw [hsub, pow_succ]
        ring
      · rw [if_neg (by push_cast; omega), if_neg h]
        ring
    rw [Finset.sum_congr rfl hmid]
    have hzero :
        ((1 - p) * if ((0 : ℕ) : ℤ) ≤ x then binomPMF n 0 p else 0) =
          (if (0 : ℤ) ≤ x then (1 - p) ^ (n + 1) else 0) := by
      unfold binomPMF
      by_cases h : (0 : ℤ) ≤ x
      · rw [if_pos (by exact_mod_cast h), if_pos h]
        simp [pow_succ]
        ring
      · rw [if_neg (by exact_mod_cast h), if_neg h]
        ring
    rw [hzero]
  have hR1 :
      p * binomCDF (x - 1) n p =
        ∑ i ∈ Finset.range (n + 1),
          p * (if (i : ℤ) ≤ x - 1 then binomPMF n i p else 0) := by
    unfold binomCDF
    rw [Finset.mul_sum]
  rw [hL, hR1, hR2]

theorem binomCDF_anti_n (x : ℤ) {n m : ℕ} {p : ℚ} (hp0 : 0 ≤ p) (hp1 : p ≤ 1)
    (hnm : n ≤ m) : binomCDF x m p ≤ binomCDF x n p := by
  induction m, hnm using Nat.le_induction with
  | base => exact le_rfl
  | succ m hm ih =>
    rw [binomCDF_succ]
    have h1 : binomCDF (x - 1) m p ≤ binomCDF x m p :=
      binomCDF_mono_x m hp0 hp1 (by omega)
    nlinarith [ih]

theorem binomCDF_anti_p (x : ℤ) (n : ℕ) {p q : ℚ} (hp0 : 0 ≤ p) (hpq : p ≤ q)
    (hq1 : q ≤ 1) : binomCDF x n q ≤ binomCDF x n p := by
  induction n generalizing x with
  | zero =>
    have h : ∀ r : ℚ, binomCDF x 0 r = if (0 : ℤ) ≤ x then 1 else 0 := by
      intro r
      unfold binomCDF binomPMF
      rw [Finset.sum_range_one]
      simp
    rw [h, h]
  | succ n ih =>
    rw [binomCDF_succ, binomCDF_succ]
    have ha := ih (x - 1)
    have hb := ih x
    have hq0 : (0 : ℚ) ≤ q := le_trans hp0 hpq
    have hp1 : p ≤ 1 := le_trans hpq hq1
    have hab : binomCDF (x - 1) n p ≤ binomCDF x n p :=
      binomCDF_mono_x n hp0 hp1 (by omega)
    nlinarith [mul_le_mul_of_nonneg_left ha hq0,
      mul_le_mul_of_nonneg_left hb (by linarith : (0 : ℚ) ≤ 1 - q),
      mul_nonneg (by linarith : (0 : ℚ) ≤ q - p) (by linarith : (0 : ℚ) ≤ binomCDF x n p - binomCDF (x - 1) n p)]

theorem binomCDF_compl (x : ℤ) (n : ℕ) (p : ℚ) :
    binomCDF x n p = 1 - binomCDF ((n : ℤ) - 1 - x) n (1 - p) := by
  have key : binomCDF x n p + binomCDF ((n : ℤ) - 1 - x) n (1 - p) = 1 := by
    have hrefl :
        binomCDF ((n : ℤ) - 1 - x) n (1 - p) =
          ∑ i ∈ Finset.range (n + 1),
            (if ¬((i : ℤ) ≤ x) then binomPMF n i p else 0) := by
      unfold binomCDF
      rw [← Finset.sum_range_reflect]
      apply Finset.sum_congr rfl
      intro i hi
      rw [Finset.mem_range] at hi
      have hin : i ≤ n := by omega
      have h1 : n + 1 - 1 - i = n - i := by omega
      rw [h1]
      have hc : (((n - i : ℕ) : ℤ) ≤ (n : ℤ) - 1 - x) ↔ ¬((i : ℤ) ≤ x) := by
        constructor <;> intro h <;> omega
      have hv : binomPMF n (n - i) (1 - p) = binomPMF n i p := by
        unfold binomPMF
        rw [Nat.choose_symm hin]
        have h2 : n - (n - i) = i := by omega
        rw [h2, sub_sub_cancel]
        ring
      by_cases h : (i : ℤ) ≤ x
      · rw [if_neg (by rw [hc]; exact not_not_intro h), if_neg (not_not_intro h)]
      · rw [if_pos (hc.mpr h), if_pos h, hv]
    rw [hrefl]
    unfold binomCDF
    rw [← Finset.sum_add_distrib, ← binomCDF_total n p]
    apply Finset.sum_congr rfl
    intro i _
    by_cases h : (i : ℤ) ≤ x
    · rw [if_pos h, if_neg (not_not_intro h), add_zero]
    · rw [if_neg h, if_pos h, zero_add]
  linarith [key]

theorem binomCDF_truncated {x : ℤ} {n : ℕ} (p : ℚ) (h0 : 0 ≤ x)
    (hn : x.toNat ≤ n) :
    binomCDF x n p = ∑ i ∈ Finset.range (x.toNat + 1), binomPMF n i p := by
  unfold binomCDF
  rw [← Finset.sum_subset
      (Finset.range_subset.mpr (show x.toNat + 1 ≤ n + 1 by omega))
      (fun i hi hni => by
        rw [Finset.mem_range] at hi hni
        rw [if_neg (by omega)])]
  apply Finset.sum_congr rfl
  intro i hi
  rw [Finset.mem_range] at hi
  rw [if_pos (by omega)]

/-! ## Validator and coverage-primitive lemmas -/

theorem var_check_nlup_ok {n l u : ℤ} {p : ℚ} (hn : 1 ≤ n) (hl : 0 ≤ l)
    (hu : u ≤ n + 1) (hlu : l ≤ u) (hp0 : 0 < p) (hp1 : p < 1) :
    order_stat_var_check (some n) (some l) (some u) (some p) none none none =
      .ok () := by
  unfold order_stat_var_check
  simp only [Bool.false_eq_true, decide_eq_true_eq, if_false]
  rw [if_neg (by omega), if_neg (by omega), if_neg (by omega), if_neg (by omega),
    if_neg (by rintro (h | h) <;> linarith)]

theorem var_check_pkcn_ok {p c : ℚ} {k nmax : ℤ} (hp0 : 0 < p) (hp1 : p < 1)
    (hk : 1 ≤ k) (hc0 : 0 < c) (hc1 : c < 1) (hnm : 1 ≤ nmax) :
    order_stat_var_check none none none (some p) (some k) (some c) (some nmax) =
      .ok () := by
  unfold order_stat_var_check
  simp only [Bool.false_eq_true, decide_eq_true_eq, if_false]
  rw [if_neg (by rintro (h | h) <;> linarith), if_neg (by omega),
    if_neg (by rintro (h | h) <;> linarith), if_neg (by omega)]

theorem var_check_pkcn_inv {p c : ℚ} {k nmax : ℤ}
    (h : order_stat_var_check none none none (some p) (some k) (some c)
      (some nmax) = .ok ()) :
    0 < p ∧ p < 1 ∧ 1 ≤ k ∧ 0 < c ∧ c < 1 ∧ 1 ≤ nmax := by
  unfold order_stat_var_check at h
  simp only [Bool.false_eq_true, decide_eq_true_eq, if_false] at h
  split_ifs at h with h1 h2 h3 h4 <;>
    first
      | exact Except.noConfusion h
      | (push_neg at h1 h3
         exact ⟨h1.1, h1.2, by omega, h3.1, h3.2, by omega⟩)

theorem var_check_npc_ok {p c : ℚ} {n : ℤ} (hn : 1 ≤ n) (hp0 : 0 < p)
    (hp1 : p < 1) (hc0 : 0 < c) (hc1 : c < 1) :
    order_stat_var_check (some n) none none (some p) none (some c) none =
      .ok () := by
  unfold order_stat_var_check
  simp only [Bool.false_eq_true, decide_eq_true_eq, if_false]
  rw [if_neg (by omega), if_neg (by rintro (h | h) <;> linarith),
    if_neg (by rintro (h | h) <;> linarith)]

theorem var_check_npk_ok {p : ℚ} {n k : ℤ} (hn : 1 ≤ n) (hp0 : 0 < p)
    (hp1 : p < 1) (hk : 1 ≤ k) :
    order_stat_var_check (some n) none none (some p) (some k) none none =
      .ok () := by
  unfold order_stat_var_check
  simp only [Bool.false_eq_true, decide_eq_true_eq, if_false]
  rw [if_neg (by omega), if_neg (by rintro (h | h) <;> linarith),
    if_neg (by omega)]

theorem var_check_nkc_ok {c : ℚ} {n k : ℤ} (hn : 1 ≤ n) (hk : 1 ≤ k)
    (hc0 : 0 < c) (hc1 : c < 1) :
    order_stat_var_check (some n) none none none (some k) (some c) none =
      .ok () := by
  unfold order_stat_var_check
  simp only [Bool.false_eq_true, decide_eq_true_eq, if_false]
  rw [if_neg (by omega), if_neg (by omega),
    if_neg (by rintro (h | h) <;> linarith)]

theorem EPTI_ok {n l u : ℤ} {p : ℚ} (hn : 1 ≤ n) (hl : 0 ≤ l) (hu : u ≤ n + 1)
    (hlu : l ≤ u) (hp0 : 0 < p) (hp1 : p < 1) :
    EPTI n l u p = .ok (EPTIval n l u p) := by
  unfold EPTI
  rw [var_check_nlup_ok hn hl hu hlu hp0 hp1]

theorem EPYP_ok {n l u : ℤ} {p : ℚ} (hn : 1 ≤ n) (hl : 0 ≤ l) (hu : u ≤ n + 1)
    (hlu : l ≤ u) (hp0 : 0 < p) (hp1 : p < 1) :
    EPYP n l u p = .ok (EPYPval n l u p) := by
  unfold EPYP
  rw [var_check_nlup_ok hn hl hu hlu hp0 hp1]

/-! ## The exact coverage threshold for `order_stat_TI_n` at
`k = 2, p = 0.99, c = 0.90`, 2-sided: the feasibility boundary sits between
`n = 666` and `n = 667`. -/

theorem choose_667_2 : Nat.choose 667 2 = 222111 := by
  rw [Nat.choose_two_right]

theorem choose_667_3 : Nat.choose 667 3 = 49234605 := by
  rw [Nat.choose_eq_descFactorial_div_factorial]
  decide

theorem choose_666_2 : Nat.choose 666 2 = 221445 := by
  rw [Nat.choose_two_right]

theorem choose_666_3 : Nat.choose 666 3 = 49013160 := by
  rw [Nat.choose_eq_descFactorial_div_factorial]
  decide

theorem S667_lt : binomCDF 3 667 (1/100) < 1/10 := by
  rw [binomCDF_truncated (1/100) (by norm_num) (by norm_num),
    show (3 : ℤ).toNat = 3 from rfl]
  norm_num [Finset.sum_range_succ, Finset.sum_range_one, binomPMF,
    choose_667_2, choose_667_3, Nat.choose_one_right]

theorem S666_ge : 1/10 ≤ binomCDF 3 666 (1/100) := by
  rw [binomCDF_truncated (1/100) (by norm_num) (by norm_num),
    show (3 : ℤ).toNat = 3 from rfl]
  norm_num [Finset.sum_range_succ, Finset.sum_range_one, binomPMF,
    choose_666_2, choose_666_3, Nat.choose_one_right]

theorem EPTIval_eq_tail {m : ℤ} (hm : 4 ≤ m) :
    EPTIval m 2 (m - 1) (99/100) = 1 - binomCDF 3 m.toNat (1/100) := by
  unfold EPTIval
  rw [binomCDF_compl]
  have h1 : ((m.toNat : ℤ)) = m := Int.toNat_of_nonneg (by omega)
  rw [show ((m.toNat : ℤ) - 1 - (m - 1 - 2 - 1)) = 3 by omega]
  norm_num

theorem epti_dec_le {m : ℤ} (h4 : 4 ≤ m) (h : m ≤ 666) :
    EPTIval m 2 (m - 1) (99/100) ≤ 9/10 := by
  rw [EPTIval_eq_tail h4]
  have h1 : binomCDF 3 666 (1/100) ≤ binomCDF 3 m.toNat (1/100) :=
    binomCDF_anti_n 3 (by norm_num) (by norm_num) (by omega)
  linarith [S666_ge]

theorem epti_dec_gt {m : ℤ} (h : 667 ≤ m) :
    9/10 < EPTIval m 2 (m - 1) (99/100) := by
  rw [EPTIval_eq_tail (by omega)]
  have h1 : binomCDF 3 m.toNat (1/100) ≤ binomCDF 3 667 (1/100) :=
    binomCDF_anti_n 3 (by norm_num) (by norm_num) (by omega)
  linarith [S667_lt]

/-! ## Invariant of the `order_stat_TI_n` bisection loop

The loop keeps `EPTI` at the upper bracket at or above `c`; the lower
bracket is either the never-tested initial value `1` or a point where
`EPTI ≤ c`.  On `.ok m` the bracket has collapsed onto `m`. -/

theorem TI_n_loop_spec (l k : ℤ) (p c : ℚ) :
    ∀ (fuel : ℕ) (n0 n1 m : ℤ), 1 ≤ n0 → n0 ≤ n1 → (n0 = 1 ∨ n0 < n1) →
    (∃ v, EPTI n1 l (n1 + 1 - k) p = .ok v ∧ c ≤ v) →
    (n0 = 1 ∨ ∃ v, EPTI n0 l (n0 + 1 - k) p = .ok v ∧ v ≤ c) →
    TI_n_loop l k p c fuel n0 n1 = .ok m →
    n0 ≤ m ∧ m ≤ n1 ∧ (∃ v, EPTI m l (m + 1 - k) p = .ok v ∧ c ≤ v) ∧
      (m ≤ 2 ∨ ∃ v, EPTI (m - 1) l (m - 1 + 1 - k) p = .ok v ∧ v ≤ c) := by
  intro fuel
  induction fuel with
  | zero =>
    intro n0 n1 m _ _ _ _ _ hm
    exact Except.noConfusion hm
  | succ f ih =>
    intro n0 n1 m h1 h2 h3 hup hlo hm
    simp only [TI_n_loop] at hm
    by_cases hs : ((n1 - n0 : ℤ) : ℚ) / 2 < 1
    · rw [if_pos hs] at hm
      have hmn : n1 = m := by
        simpa using hm
      subst hmn
      have hgap : n1 - n0 ≤ 1 := by
        rw [div_lt_one (by norm_num)] at hs
        have h4 : (n1 - n0 : ℤ) < 2 := by exact_mod_cast hs
        omega
      refine ⟨h2, le_rfl, hup, ?_⟩
      rcases h3 with h3 | h3
      · left; omega
      · have hn1 : n1 = n0 + 1 := by omega
        rcases hlo with h4 | ⟨v, hE, hv⟩
        · left; omega
        · right
          rw [show n1 - 1 = n0 by omega]
          exact ⟨v, hE, hv⟩
    · rw [if_neg hs] at hm
      have hgap : 2 ≤ n1 - n0 := by
        rw [not_lt, le_div_iff (by norm_num)] at hs
        exact_mod_cast hs
      have hc1 : 1 ≤ ⌈((n1 - n0 : ℤ) : ℚ) / 2⌉ := by
        have hlt : ((0 : ℤ) : ℚ) < ((n1 - n0 : ℤ) : ℚ) / 2 := by
          have h2q : (2 : ℚ) ≤ ((n1 - n0 : ℤ) : ℚ) := by exact_mod_cast hgap
          push_cast at h2q ⊢
          linarith
        have := Int.lt_ceil.mpr hlt
        omega
      have hc2 : ⌈((n1 - n0 : ℤ) : ℚ) / 2⌉ ≤ n1 - n0 - 1 := by
        apply Int.ceil_le.mpr
        have h2q : (2 : ℚ) ≤ ((n1 - n0 : ℤ) : ℚ) := by exact_mod_cast hgap
        push_cast at h2q ⊢
        rw [div_le_iff (by norm_num)]
        linarith
      cases hE : EPTI (n0 + ⌈((n1 - n0 : ℤ) : ℚ) / 2⌉) l
          ((n0 + ⌈((n1 - n0 : ℤ) : ℚ) / 2⌉) + 1 - k) p with
      | error e =>
        rw [hE] at hm
        exact Except.noConfusion hm
      | ok v =>
        simp only [hE] at hm
        by_cases hv : v ≤ c
        · rw [if_pos hv] at hm
          have hrec := ih (n0 + ⌈((n1 - n0 : ℤ) : ℚ) / 2⌉) n1 m (by omega) (by omega)
            (Or.inr (by omega)) hup (Or.inr ⟨v, hE, hv⟩) hm
          exact ⟨le_trans (by omega) hrec.1, hrec.2.1, hrec.2.2.1, hrec.2.2.2⟩
        · rw [if_neg hv] at hm
          have hlo2 : n0 = 1 ∨ n0 < n0 + ⌈((n1 - n0 : ℤ) : ℚ) / 2⌉ :=
            Or.inr (by omega)
          have hrec := ih n0 (n0 + ⌈((n1 - n0 : ℤ) : ℚ) / 2⌉) m h1 (by omega) hlo2
            ⟨v, hE, le_of_lt (not_le.mp hv)⟩ hlo hm
          exact ⟨hrec.1, le_trans hrec.2.1 (by omega), hrec.2.2.1, hrec.2.2.2⟩

/-- Dissection of a successful `order_stat_TI_n` run: the validator
accepted the inputs, and the returned sample size sits at the coverage
threshold described by `TI_n_loop_spec`. -/
theorem TI_n_ok_inv {k nmax m l : ℤ} {p c : ℚ} {bound : String}
    (hl : TI_lsel k bound = some l)
    (hm : order_stat_TI_n k p c nmax bound = .ok (some m)) :
    0 < p ∧ p < 1 ∧ 1 ≤ k ∧ 0 < c ∧ c < 1 ∧ 1 ≤ nmax ∧ 1 ≤ m ∧ m ≤ nmax ∧
    (∃ v, EPTI m l (m + 1 - k) p = .ok v ∧ c ≤ v) ∧
    (m ≤ 2 ∨ ∃ v, EPTI (m - 1) l (m - 1 + 1 - k) p = .ok v ∧ v ≤ c) := by
  unfold order_stat_TI_n at hm
  cases hchk : order_stat_var_check none none none (some p) (some k) (some c)
      (some nmax) with
  | error e =>
    rw [hchk] at hm
    exact Except.noConfusion hm
  | ok u0 =>
    cases u0
    obtain ⟨hp0, hp1, hk, hc0, hc1, hnm⟩ := var_check_pkcn_inv hchk
    simp only [hchk, hl] at hm
    cases hE : EPTI nmax l (nmax + 1 - k) p with
    | error e =>
      rw [hE] at hm
      exact Except.noConfusion hm
    | ok v =>
      simp only [hE] at hm
      by_cases hv : v < c
      · rw [if_pos hv] at hm
        simp at hm
      · rw [if_neg hv] at hm
        have hloop : TI_n_loop l k p c 1000 1 nmax = .ok m := by
          cases hr : TI_n_loop l k p c 1000 1 nmax with
          | error e =>
            rw [hr] at hm
            simp [Except.map] at hm
          | ok mm =>
            rw [hr] at hm
            simp only [Except.map] at hm
            have : mm = m := by simpa using hm
            rw [this]
        have hspec := TI_n_loop_spec l k p c 1000 1 nmax m (by norm_num) hnm
          (Or.inl rfl) ⟨v, hE, not_lt.mp hv⟩ (Or.inl rfl) hloop
        exact ⟨hp0, hp1, hk, hc0, hc1, hnm, hspec.1, hspec.2.1, hspec.2.2.1,
          hspec.2.2.2⟩

/-! ## The literal run `order_stat_TI_n(k=2, p=0.99, c=0.90)` -/

theorem C2_step (f : ℕ) (n0 n1 mid : ℤ)
    (hmid : n0 + ⌈((n1 - n0 : ℤ) : ℚ) / 2⌉ = mid)
    (hgap : 2 ≤ n1 - n0) (hmid3 : 3 ≤ mid) :
    TI_n_loop 2 2 (99/100) (9/10) (f + 1) n0 n1 =
      if EPTIval mid 2 (mid - 1) (99/100) ≤ 9/10 then
        TI_n_loop 2 2 (99/100) (9/10) f mid n1
      else TI_n_loop 2 2 (99/100) (9/10) f n0 mid := by
  have hnot : ¬(((n1 - n0 : ℤ) : ℚ) / 2 < 1) := by
    rw [not_lt, le_div_iff (by norm_num)]
    have h2q : (2 : ℚ) ≤ ((n1 - n0 : ℤ) : ℚ) := by exact_mod_cast hgap
    linarith
  simp only [TI_n_loop]
  rw [if_neg hnot, hmid,
    EPTI_ok (show (1 : ℤ) ≤ mid by omega) (by norm_num) (by omega) (by omega)
      (by norm_num) (by norm_num),
    show mid + 1 - 2 = mid - 1 from by omega]

theorem TI_n_loop_done (l k : ℤ) (p c : ℚ) (f : ℕ) (n0 n1 : ℤ)
    (h : ((n1 - n0 : ℤ) : ℚ) / 2 < 1) :
    TI_n_loop l k p c (f + 1) n0 n1 = .ok n1 := by
  simp only [TI_n_loop]
  rw [if_pos h]

theorem C2_loop :
    TI_n_loop 2 2 (99/100) (9/10) 1000 1 10000000 = .ok 667 := by
  have t1 : TI_n_loop 2 2 (99/100) (9/10) 1000 1 10000000 =
      TI_n_loop 2 2 (99/100) (9/10) 999 1 5000001 := by
    rw [show (1000 : ℕ) = 999 + 1 from rfl]
    rw [C2_step 999 1 10000000 5000001 (by with_unfolding_all decide) (by norm_num)
      (by norm_num)]
    rw [if_neg (not_le.mpr (epti_dec_gt (by norm_num)))]
  have t2 : TI_n_loop 2 2 (99/100) (9/10) 999 1 5000001 =
      TI_n_loop 2 2 (99/100) (9/10) 998 1 2500001 := by
    rw [show (999 : ℕ) = 998 + 1 from rfl]
    rw [C2_step 998 1 5000001 2500001 (by with_unfolding_all decide) (by norm_num)
      (by norm_num)]
    rw [if_neg (not_le.mpr (epti_dec_gt (by norm_num)))]
  have t3 : TI_n_loop 2 2 (99/100) (9/10) 998 1 2500001 =
      TI_n_loop 2 2 (99/100) (9/10) 997 1 1250001 := by
    rw [show (998 : ℕ) = 997 + 1 from rfl]
    rw [C2_step 997 1 2500001 1250001 (by with_unfolding_all decide) (by norm_num)
      (by norm_num)]
    rw [if_neg (not_le.mpr (epti_dec_gt (by norm_num)))]
  have t4 : TI_n_loop 2 2 (99/100) (9/10) 997 1 1250001 =
      TI_n_loop 2 2 (99/100) (9/10) 996 1 625001 := by
    rw [show (997 : ℕ) = 996 + 1 from rfl]
    rw [C2_step 996 1 1250001 625001 (by with_unfolding_all decide) (by norm_num)
      (by norm_num)]
    rw [if_neg (not_le.mpr (epti_dec_gt (by norm_num)))]
  have t5 : TI_n_loop 2 2 (99/100) (9/10) 996 1 625001 =
      TI_n_loop 2 2 (99/100) (9/10) 995 1 312501 := by
    rw [show (996 : ℕ) = 995 + 1 from rfl]
    rw [C2_step 995 1 625001 312501 (by with_unfolding_all decide) (by norm_num)
      (by norm_num)]
    rw [if_neg (not_le.mpr (epti_dec_gt (by norm_num)))]
  have t6 : TI_n_loop 2 2 (99/100) (9/10) 995 1 312501 =
      TI_n_loop 2 2 (99/100) (9/10) 994 1 156251 := by
    rw [show (995 : ℕ) = 994 + 1 from rfl]
    rw [C2_step 994 1 312501 156251 (by with_unfolding_all decide) (by norm_num)
      (by norm_num)]
    rw [if_neg (not_le.mpr (epti_dec_gt (by norm_num)))]
  have t7 : TI_n_loop 2 2 (99/100) (9/10) 994 1 156251 =
      TI_n_loop 2 2 (99/100) (9/10) 993 1 78126 := by
    rw [show (994 : ℕ) = 993 + 1 from rfl]
    rw [C2_step 993 1 156251 78126 (by with_unfolding_all decide) (by norm_num)
      (by norm_num)]
    rw [if_neg (not_le.mpr (epti_dec_gt (by norm_num)))]
  have t8 : TI_n_loop 2 2 (99/100) (9/10) 993 1 78126 =
      TI_n_loop 2 2 (99/100) (9/10) 992 1 39064 := by
    rw [show (993 : ℕ) = 992 + 1 from rfl]
    rw [C2_step 992 1 78126 39064 (by with_unfolding_all decide) (by norm_num)
      (by norm_num)]
    rw [if_neg (not_le.mpr (epti_dec_gt (by norm_num)))]
  have t9 : TI_n_loop 2 2 (99/100) (9/10) 992 1 39064 =
      TI_n_loop 2 2 (99/100) (9/10) 991 1 19533 := by
    rw [show (992 : ℕ) = 991 + 1 from rfl]
    rw [C2_step 991 1 39064 19533 (by with_unfolding_all decide) (by norm_num)
      (by norm_num)]
    rw [if_neg (not_le.mpr (epti_dec_gt (by norm_num)))]
  have t10 : TI_n_loop 2 2 (99/100) (9/10) 991 1 19533 =
      TI_n_loop 2 2 (99/100) (9/10) 990 1 9767 := by
    rw [show (991 : ℕ) = 990 + 1 from rfl]
    rw [C2_step 990 1 19533 9767 (by with_unfolding_all decide) (by norm_num)
      (by norm_num)]
    rw [if_neg (not_le.mpr (epti_dec_gt (by norm_num)))]
  have t11 : TI_n_loop 2 2 (99/100) (9/10) 990 1 9767 =
      TI_n_loop 2 2 (99/100) (9/10) 989 1 4884 := by
    rw [show (990 : ℕ) = 989 + 1 from rfl]
    rw [C2_step 989 1 9767 4884 (by with_unfolding_all decide) (by norm_num)
      (by norm_num)]
    rw [if_neg (not_le.mpr (epti_dec_gt (by norm_num)))]
  have t12 : TI_n_loop 2 2 (99/100) (9/10) 989 1 4884 =
      TI_n_loop 2 2 (99/100) (9/10) 988 1 2443 := by
    rw [show (989 : ℕ) = 988 + 1 from rfl]
    rw [C2_step 988 1 4884 2443 (by with_unfolding_all decide) (by norm_num)
      (by norm_num)]
    rw [if_neg (not_le.mpr (epti_dec_gt (by norm_num)))]
  have t13 : TI_n_loop 2 2 (99/100) (9/10) 988 1 2443 =
      TI_n_loop 2 2 (99/100) (9/10) 987 1 1222 := by
    rw [show (988 : ℕ) = 987 + 1 from rfl]
    rw [C2_step 987 1 2443 1222 (by with_unfolding_all decide) (by norm_num)
      (by norm_num)]
    rw [if_neg (not_le.mpr (epti_dec_gt (by norm_num)))]
  have t14 : TI_n_loop 2 2 (99/100) (9/10) 987 1 1222 =
      TI_n_loop 2 2 (99/100) (9/10) 986 612 1222 := by
    rw [show (987 : ℕ) = 986 + 1 from rfl]
    rw [C2_step 986 1 1222 612 (by with_unfolding_all decide) (by norm_num)
      (by norm_num)]
    rw [if_pos (epti_dec_le (by norm_num) (by norm_num))]
  have t15 : TI_n_loop 2 2 (99/100) (9/10) 986 612 1222 =
      TI_n_loop 2 2 (99/100) (9/10) 985 612 917 := by
    rw [show (986 : ℕ) = 985 + 1 from rfl]
    rw [C2_step 985 612 1222 917 (by with_unfolding_all decide) (by norm_num)
      (by norm_num)]
    rw [if_neg (not_le.mpr (epti_dec_gt (by norm_num)))]
  have t16 : TI_n_loop 2 2 (99/100) (9/10) 985 612 917 =
      TI_n_loop 2 2 (99/100) (9/10) 984 612 765 := by
    rw [show (985 : ℕ) = 984 + 1 from rfl]
    rw [C2_step 984 612 917 765 (by with_unfolding_all decide) (by norm_num)
      (by norm_num)]
    rw [if_neg (not_le.mpr (epti_dec_gt (by norm_num)))]
  have t17 : TI_n_loop 2 2 (99/100) (9/10) 984 612 765 =
      TI_n_loop 2 2 (99/100) (9/10) 983 612 689 := by
    rw [show (984 : ℕ) = 983 + 1 from rfl]
    rw [C2_step 983 612 765 689 (by with_unfolding_all decide) (by norm_num)
      (by norm_num)]
    rw [if_neg (not_le.mpr (epti_dec_gt (by norm_num)))]
  have t18 : TI_n_loop 2 2 (99/100) (9/10) 983 612 689 =
      TI_n_loop 2 2 (99/100) (9/10) 982 651 689 := by
    rw [show (983 : ℕ) = 982 + 1 from rfl]
    rw [C2_step 982 612 689 651 (by with_unfolding_all decide) (by norm_num)
      (by norm_num)]
    rw [if_pos (epti_dec_le (by norm_num) (by norm_num))]
  have t19 : TI_n_loop 2 2 (99/100) (9/10) 982 651 689 =
      TI_n_loop 2 2 (99/100) (9/10) 981 651 670 := by
    rw [show (982 : ℕ) = 981 + 1 from rfl]
    rw [C2_step 981 651 689 670 (by with_unfolding_all decide) (by norm_num)
      (by norm_num)]
    rw [if_neg (not_le.mpr (epti_dec_gt (by norm_num)))]
  have t20 : TI_n_loop 2 2 (99/100) (9/10) 981 651 670 =
      TI_n_loop 2 2 (99/100) (9/10) 980 661 670 := by
    rw [show (981 : ℕ) = 980 + 1 from rfl]
    rw [C2_step 980 651 670 661 (by with_unfolding_all decide) (by norm_num)
      (by norm_num)]
    rw [if_pos (epti_dec_le (by norm_num) (by norm_num))]
  have t21 : TI_n_loop 2 2 (99/100) (9/10) 980 661 670 =
      TI_n_loop 2 2 (99/100) (9/10) 979 666 670 := by
    rw [show (980 : ℕ) = 979 + 1 from rfl]
    rw [C2_step 979 661 670 666 (by with_unfolding_all decide) (by norm_num)
      (by norm_num)]
    rw [if_pos (epti_dec_le (by norm_num) (by norm_num))]
  have t22 : TI_n_loop 2 2 (99/100) (9/10) 979 666 670 =
      TI_n_loop 2 2 (99/100) (9/10) 978 666 668 := by
    rw [show (979 : ℕ) = 978 + 1 from rfl]
    rw [C2_step 978 666 670 668 (by with_unfolding_all decide) (by norm_num)
      (by norm_num)]
    rw [if_neg (not_le.mpr (epti_dec_gt (by norm_num)))]
  have t23 : TI_n_loop 2 2 (99/100) (9/10) 978 666 668 =
      TI_n_loop 2 2 (99/100) (9/10) 977 666 667 := by
    rw [show (978 : ℕ) = 977 + 1 from rfl]
    rw [C2_step 977 666 668 667 (by with_unfolding_all decide) (by norm_num)
      (by norm_num)]
    rw [if_neg (not_le.mpr (epti_dec_gt (by norm_num)))]
  have t24 : TI_n_loop 2 2 (99/100) (9/10) 977 666 667 = .ok 667 := by
    rw [show (977 : ℕ) = 976 + 1 from rfl]
    exact TI_n_loop_done 2 2 (99/100) (9/10) 976 666 667 (by norm_num)
  rw [t1, t2, t3, t4, t5, t6, t7, t8, t9, t10, t11, t12, t13, t14, t15, t16, t17, t18, t19, t20, t21, t22, t23, t24]

/-- C2: the literal scenario.  With exact rational arithmetic the bisection
returns exactly 667 (the docstring of the source mentions 668 in passing,
but its own test block records 667). -/
theorem C2_main :
    order_stat_TI_n 2 (99/100) (9/10) 10000000 "2-sided" = .ok (some 667) := by
  have hchk : order_stat_var_check none none none (some (99/100 : ℚ)) (some 2)
      (some (9/10 : ℚ)) (some 10000000) = .ok () := by with_unfolding_all decide
  have hlsel : TI_lsel 2 "2-sided" = some 2 := by with_unfolding_all decide
  have hE : EPTI 10000000 2 (10000000 + 1 - 2) (99/100) =
      .ok (EPTIval 10000000 2 (10000000 + 1 - 2) (99/100)) :=
    EPTI_ok (by norm_num) (by norm_num) (by norm_num) (by norm_num)
      (by norm_num) (by norm_num)
  have hgt : ¬(EPTIval 10000000 2 (10000000 + 1 - 2) (99/100) < 9/10) := by
    rw [show (10000000 + 1 - 2 : ℤ) = 10000000 - 1 from by norm_num]
    exact not_lt.mpr (le_of_lt (epti_dec_gt (by norm_num)))
  unfold order_stat_TI_n
  simp only [hchk, hlsel, hE]
  rw [if_neg hgt, C2_loop]
  rfl


/-! ## Invariant of the `order_stat_TI_p` bisection loop -/

theorem var_check_nkc_inv {c : ℚ} {n k : ℤ}
    (h : order_stat_var_check (some n) none none none (some k) (some c) none =
      .ok ()) :
    1 ≤ n ∧ 1 ≤ k ∧ 0 < c ∧ c < 1 := by
  unfold order_stat_var_check at h
  simp only [Bool.false_eq_true, decide_eq_true_eq, if_false] at h
  split_ifs at h with h1 h2 h3 <;>
    first
      | exact Except.noConfusion h
      | (push_neg at h3
         exact ⟨by omega, by omega, h3.1, h3.2⟩)

/-- The loop of `order_stat_TI_p` keeps `EPTI < c` at the upper bracket
(except for the never-tested initial `1`) and `EPTI ≥ c` at the lower
bracket (except for the never-tested initial `0`); it returns the upper
bracket once the bracket width drops to `2*ptol`. -/
theorem TI_p_loop_spec (n l u : ℤ) (c ptol : ℚ) :
    ∀ (fuel : ℕ) (p0 p1 r : ℚ), 0 ≤ p0 → p0 < p1 → p1 ≤ 1 →
    (p0 = 0 ∨ ∃ v, EPTI n l u p0 = .ok v ∧ c ≤ v) →
    (p1 = 1 ∨ ∃ v, EPTI n l u p1 = .ok v ∧ v < c) →
    TI_p_loop n (some l) u c ptol fuel p0 p1 = .ok r →
    (r = 1 ∨ ∃ v, EPTI n l u r = .ok v ∧ v < c) ∧
      ∃ q, 0 ≤ q ∧ q < r ∧ r - q ≤ 2 * ptol ∧
        (q = 0 ∨ ∃ v, EPTI n l u q = .ok v ∧ c ≤ v) := by
  intro fuel
  induction fuel with
  | zero =>
    intro p0 p1 r _ _ _ _ _ hm
    exact Except.noConfusion hm
  | succ f ih =>
    intro p0 p1 r h0 h01 h11 hlo hup hm
    simp only [TI_p_loop] at hm
    by_cases hs : (p1 - p0) / 2 ≤ ptol
    · rw [if_pos hs] at hm
      have hr : p1 = r := by simpa using hm
      subst hr
      exact ⟨hup, p0, h0, h01, by linarith, hlo⟩
    · rw [if_neg hs] at hm
      cases hE : EPTI n l u (p0 + (p1 - p0) / 2) with
      | error e =>
        rw [hE] at hm
        exact Except.noConfusion hm
      | ok v =>
        simp only [hE] at hm
        by_cases hv : c ≤ v
        · rw [if_pos hv] at hm
          exact ih (p0 + (p1 - p0) / 2) p1 r (by linarith) (by linarith) h11
            (Or.inr ⟨v, hE, hv⟩) hup hm
        · rw [if_neg hv] at hm
          exact ih p0 (p0 + (p1 - p0) / 2) r h0 (by linarith) (by linarith)
            hlo (Or.inr ⟨v, hE, not_le.mp hv⟩) hm

/-- Dissection of a successful `order_stat_TI_p` run. -/
theorem TI_p_ok_inv {n k : ℤ} {c ptol r : ℚ} {bound : String} {l : ℤ}
    (hl : TI_lsel k bound = some l)
    (hm : order_stat_TI_p n k c ptol bound = .ok r) :
    1 ≤ n ∧ 1 ≤ k ∧ 0 < c ∧ c < 1 ∧
    (r = 1 ∨ ∃ v, EPTI n l (n + 1 - k) r = .ok v ∧ v < c) ∧
      ∃ q, 0 ≤ q ∧ q < r ∧ r - q ≤ 2 * ptol ∧
        (q = 0 ∨ ∃ v, EPTI n l (n + 1 - k) q = .ok v ∧ c ≤ v) := by
  unfold order_stat_TI_p at hm
  cases hchk : order_stat_var_check (some n) none none none (some k) (some c)
      none with
  | error e =>
    rw [hchk] at hm
    exact Except.noConfusion hm
  | ok u0 =>
    cases u0
    obtain ⟨hn, hk, hc0, hc1⟩ := var_check_nkc_inv hchk
    simp only [hchk, hl] at hm
    have hspec := TI_p_loop_spec n l (n + 1 - k) c ptol 1000 0 1 r le_rfl
      (by norm_num) le_rfl (Or.inl rfl) (Or.inl rfl) hm
    exact ⟨hn, hk, hc0, hc1, hspec.1, hspec.2⟩

/-! ## Invariant of the `order_stat_P_n` bisection loop

Note the branch orientation: coverage strictly above `c` moves the *lower*
bracket up, and the loop returns the lower bracket `n0` — so the returned
value sits at the upper end of the feasible region, not at its minimum. -/

theorem P_n_loop_spec (k : ℤ) (P c : ℚ) (bound : String) (nmin nmax : ℤ) :
    ∀ (fuel : ℕ) (n0 n1 m : ℤ), nmin ≤ n0 →
    (n0 = nmin ∨ ∃ lu v, P_lu n0 k P bound = some lu ∧
      EPYP n0 lu.1 lu.2 P = .ok v ∧ c < v) →
    (n1 = nmax ∨ ∃ lu v, P_lu n1 k P bound = some lu ∧
      EPYP n1 lu.1 lu.2 P = .ok v ∧ v ≤ c) →
    P_n_loop k P c bound fuel n0 n1 = .ok (some m) →
    nmin ≤ m ∧
    (m = nmin ∨ ∃ lu v, P_lu m k P bound = some lu ∧
      EPYP m lu.1 lu.2 P = .ok v ∧ c < v) ∧
    (∃ n1', n1' ≤ m + 1 ∧ (n1' = nmax ∨ ∃ lu v, P_lu n1' k P bound = some lu ∧
      EPYP n1' lu.1 lu.2 P = .ok v ∧ v ≤ c)) := by
  intro fuel
  induction fuel with
  | zero =>
    intro n0 n1 m _ _ _ hm
    exact Except.noConfusion hm
  | succ f ih =>
    intro n0 n1 m h0 hlo hup hm
    simp only [P_n_loop] at hm
    by_cases hs : ((n1 - n0 : ℤ) : ℚ) / 2 < 1
    · rw [if_pos hs] at hm
      have hr : n0 = m := by simpa using hm
      subst hr
      have hgap : n1 ≤ n0 + 1 := by
        rw [div_lt_one (by norm_num)] at hs
        have h4 : (n1 - n0 : ℤ) < 2 := by exact_mod_cast hs
        omega
      exact ⟨h0, hlo, n1, hgap, hup⟩
    · rw [if_neg hs] at hm
      have hgap : 2 ≤ n1 - n0 := by
        rw [not_lt, le_div_iff (by norm_num)] at hs
        exact_mod_cast hs
      have hc1 : 1 ≤ ⌈((n1 - n0 : ℤ) : ℚ) / 2⌉ := by
        have hlt : ((0 : ℤ) : ℚ) < ((n1 - n0 : ℤ) : ℚ) / 2 := by
          have h2q : (2 : ℚ) ≤ ((n1 - n0 : ℤ) : ℚ) := by exact_mod_cast hgap
          push_cast at h2q ⊢
          linarith
        have := Int.lt_ceil.mpr hlt
        omega
      cases hLU : P_lu (n0 + ⌈((n1 - n0 : ℤ) : ℚ) / 2⌉) k P bound with
      | none =>
        rw [hLU] at hm
        exact Except.noConfusion hm
      | some lu =>
        simp only [hLU] at hm
        cases hE : EPYP (n0 + ⌈((n1 - n0 : ℤ) : ℚ) / 2⌉) lu.1 lu.2 P with
        | error e =>
          rw [hE] at hm
          exact Except.noConfusion hm
        | ok v =>
          simp only [hE] at hm
          by_cases hv : c < v
          · rw [if_pos hv] at hm
            exact ih (n0 + ⌈((n1 - n0 : ℤ) : ℚ) / 2⌉) n1 m (by omega)
              (Or.inr ⟨lu, v, hLU, hE, hv⟩) hup hm
          · rw [if_neg hv] at hm
            exact ih n0 (n0 + ⌈((n1 - n0 : ℤ) : ℚ) / 2⌉) m h0 hlo
              (Or.inr ⟨lu, v, hLU, hE, not_lt.mp hv⟩) hm

/-- Dissection of a successful `order_stat_P_n` run: whatever branch the
bound string selects, success comes from the shared loop started at
`(nmin, nmax)`. -/
theorem P_n_ok_inv {k nmax m : ℤ} {P c : ℚ} {bound : String}
    (hm : order_stat_P_n k P c nmax bound = .ok (some m)) :
    0 < P ∧ P < 1 ∧ 1 ≤ k ∧ 0 < c ∧ c < 1 ∧ 1 ≤ nmax ∧
    P_n_nmin k P ≤ m ∧
    (m = P_n_nmin k P ∨ ∃ lu v, P_lu m k P bound = some lu ∧
      EPYP m lu.1 lu.2 P = .ok v ∧ c < v) ∧
    (∃ n1, n1 ≤ m + 1 ∧ (n1 = nmax ∨ ∃ lu v, P_lu n1 k P bound = some lu ∧
      EPYP n1 lu.1 lu.2 P = .ok v ∧ v ≤ c)) := by
  unfold order_stat_P_n at hm
  cases hchk : order_stat_var_check none none none (some P) (some k) (some c)
      (some nmax) with
  | error e =>
    rw [hchk] at hm
    exact Except.noConfusion hm
  | ok u0 =>
    cases u0
    obtain ⟨hP0, hP1, hk, hc0, hc1, hnm⟩ := var_check_pkcn_inv hchk
    simp only [hchk] at hm
    have hfin : P_n_loop k P c bound 1000 (P_n_nmin k P) nmax = .ok (some m) →
        P_n_nmin k P ≤ m ∧
        (m = P_n_nmin k P ∨ ∃ lu v, P_lu m k P bound = some lu ∧
          EPYP m lu.1 lu.2 P = .ok v ∧ c < v) ∧
        (∃ n1, n1 ≤ m + 1 ∧ (n1 = nmax ∨ ∃ lu v,
          P_lu n1 k P bound = some lu ∧
          EPYP n1 lu.1 lu.2 P = .ok v ∧ v ≤ c)) := fun hml =>
      P_n_loop_spec k P c bound (P_n_nmin k P) nmax 1000 (P_n_nmin k P) nmax m
        le_rfl (Or.inl rfl) (Or.inl rfl) hml
    by_cases hb1 : bound = "2-sided"
    · rw [if_pos hb1] at hm
      by_cases hpre : (get_iP (P_n_nmin k P) P).1 - k + 1 ≤ 0 ∨
          nmax + 1 ≤ (get_iP (P_n_nmin k P) P).2.2 + k - 1
      · rw [if_pos hpre] at hm
        simp at hm
      · rw [if_neg hpre] at hm
        cases hEp : EPYP (P_n_nmin k P) ((get_iP (P_n_nmin k P) P).1 - k + 1)
            ((get_iP (P_n_nmin k P) P).2.2 + k - 1) P with
        | error e =>
          rw [hEp] at hm
          exact Except.noConfusion hm
        | ok v =>
          simp only [hEp] at hm
          by_cases hvc : v < c
          · rw [if_pos hvc] at hm
            simp at hm
          · rw [if_neg hvc] at hm
            exact ⟨hP0, hP1, hk, hc0, hc1, hnm, hfin hm⟩
    · rw [if_neg hb1] at hm
      by_cases hb2 : bound = "1-sided upper"
      · rw [if_pos hb2] at hm
        by_cases hpre : nmax + 1 ≤ (get_iP (P_n_nmin k P) P).2.2 + k - 1
        · rw [if_pos hpre] at hm
          simp at hm
        · rw [if_neg hpre] at hm
          cases hEp : EPYP (P_n_nmin k P) 0
              ((get_iP (P_n_nmin k P) P).2.2 + k - 1) P with
          | error e =>
            rw [hEp] at hm
            exact Except.noConfusion hm
          | ok v =>
            simp only [hEp] at hm
            by_cases hvc : v < c
            · rw [if_pos hvc] at hm
              simp at hm
            · rw [if_neg hvc] at hm
              exact ⟨hP0, hP1, hk, hc0, hc1, hnm, hfin hm⟩
      · rw [if_neg hb2] at hm
        by_cases hb3 : bound = "1-sided lower"
        · rw [if_pos hb3] at hm
          by_cases hpre : (get_iP (P_n_nmin k P) P).1 - k + 1 ≤ 0
          · rw [if_pos hpre] at hm
            simp at hm
          · rw [if_neg hpre] at hm
            cases hEp : EPYP (P_n_nmin k P)
                ((get_iP (P_n_nmin k P) P).1 - k + 1) (P_n_nmin k P + 1) P with
            | error e =>
              rw [hEp] at hm
              exact Except.noConfusion hm
            | ok v =>
              simp only [hEp] at hm
              by_cases hvc : v < c
              · rw [if_pos hvc] at hm
                simp at hm
              · rw [if_neg hvc] at hm
                exact ⟨hP0, hP1, hk, hc0, hc1, hnm, hfin hm⟩
        · rw [if_neg hb3] at hm
          exact ⟨hP0, hP1, hk, hc0, hc1, hnm, hfin hm⟩

/-! ## Further inversions and helpers for the claim theorems -/

theorem var_check_nlup_inv {n l u : ℤ} {p : ℚ}
    (h : order_stat_var_check (some n) (some l) (some u) (some p) none none
      none = .ok ()) :
    1 ≤ n ∧ 0 ≤ l ∧ u ≤ n + 1 ∧ l ≤ u ∧ 0 < p ∧ p < 1 := by
  unfold order_stat_var_check at h
  simp only [Bool.false_eq_true, decide_eq_true_eq, if_false] at h
  split_ifs at h with h1 h2 h3 h4 h5 <;>
    first
      | exact Except.noConfusion h
      | (push_neg at h5
         exact ⟨by omega, by omega, by omega, by omega, h5.1, h5.2⟩)

theorem EPTI_ok_inv {n l u : ℤ} {p v : ℚ} (h : EPTI n l u p = .ok v) :
    v = EPTIval n l u p ∧ 1 ≤ n ∧ 0 ≤ l ∧ u ≤ n + 1 ∧ l ≤ u ∧ 0 < p ∧
      p < 1 := by
  unfold EPTI at h
  cases hchk : order_stat_var_check (some n) (some l) (some u) (some p) none
      none none with
  | error e =>
    rw [hchk] at h
    exact Except.noConfusion h
  | ok u0 =>
    cases u0
    rw [hchk] at h
    have hv : EPTIval n l u p = v := by simpa using h
    exact ⟨hv.symm, var_check_nlup_inv hchk⟩

theorem TI_p_loop_none (n u : ℤ) (c ptol : ℚ) (f : ℕ) (p0 p1 : ℚ)
    (h : ¬((p1 - p0) / 2 ≤ ptol)) :
    TI_p_loop n none u c ptol (f + 1) p0 p1 =
      .error "UnboundLocalError: l" := by
  simp only [TI_p_loop]
  rw [if_neg h]

theorem P_lu_none {k n : ℤ} {P : ℚ} {bound : String} (hb1 : bound ≠ "2-sided")
    (hb3 : bound ≠ "1-sided upper") (hb4 : bound ≠ "1-sided lower") :
    P_lu n k P bound = none := by
  unfold P_lu
  rw [if_neg hb1, if_neg hb3, if_neg hb4]

theorem P_n_loop_none (k : ℤ) (P c : ℚ) (bound : String) (f : ℕ) (n0 n1 : ℤ)
    (hs : ¬(((n1 - n0 : ℤ) : ℚ) / 2 < 1)) (hb1 : bound ≠ "2-sided")
    (hb3 : bound ≠ "1-sided upper") (hb4 : bound ≠ "1-sided lower") :
    P_n_loop k P c bound (f + 1) n0 n1 = .error "UnboundLocalError: l" := by
  simp only [P_n_loop]
  rw [if_neg hs, P_lu_none hb1 hb3 hb4]

/-! ## Properties of the concrete model primitives `mcdf` and `mppf` -/

theorem mcdf_pos (x : ℚ) : 0 < mcdf x := by
  unfold mcdf
  have h1 : -(1/2 : ℚ) < x / (2 * (1 + |x|)) := by
    rw [lt_div_iff (by positivity)]
    have := neg_abs_le x
    linarith
  linarith

theorem mcdf_lt_one (x : ℚ) : mcdf x < 1 := by
  unfold mcdf
  have h1 : x / (2 * (1 + |x|)) < 1/2 := by
    rw [div_lt_iff (by positivity)]
    have := le_abs_self x
    linarith
  linarith

theorem mcdf_mono : Monotone mcdf := by
  intro x y hxy
  unfold mcdf
  have key : x / (2 * (1 + |x|)) ≤ y / (2 * (1 + |y|)) := by
    rw [div_le_div_iff (by positivity) (by positivity)]
    rcases abs_cases x with ⟨hx1, hx2⟩ | ⟨hx1, hx2⟩ <;>
      rcases abs_cases y with ⟨hy1, hy2⟩ | ⟨hy1, hy2⟩ <;>
      rw [hx1, hy1] <;> nlinarith
  linarith

theorem mcdf_mppf {y : ℚ} (h0 : 0 < y) (h1 : y < 1) : mcdf (mppf y) = y := by
  unfold mcdf mppf
  rcases le_or_lt (1/2 : ℚ) y with h | h
  · have ht : |2 * y - 1| = 2 * y - 1 := abs_of_nonneg (by linarith)
    rw [ht]
    have hd : (0 : ℚ) < 1 - (2 * y - 1) := by linarith
    have hne1 : (1 - (2 * y - 1)) ≠ 0 := ne_of_gt hd
    have hm0 : 0 ≤ (2 * y - 1) / (1 - (2 * y - 1)) :=
      div_nonneg (by linarith) (by linarith)
    rw [abs_of_nonneg hm0]
    have e1 : (1 : ℚ) + (2 * y - 1) / (1 - (2 * y - 1)) =
        1 / (1 - (2 * y - 1)) := by field_simp
    rw [e1]
    field_simp
  · have ht : |2 * y - 1| = -(2 * y - 1) := abs_of_nonpos (by linarith)
    rw [ht]
    have hd : (0 : ℚ) < 1 - -(2 * y - 1) := by linarith
    have hne1 : (1 - -(2 * y - 1)) ≠ 0 := ne_of_gt hd
    have hm0 : (2 * y - 1) / (1 - -(2 * y - 1)) ≤ 0 :=
      div_nonpos_of_nonpos_of_nonneg (by linarith) (by linarith)
    rw [abs_of_nonpos hm0]
    have e1 : (1 : ℚ) + -((2 * y - 1) / (1 - -(2 * y - 1))) =
        1 / (1 - -(2 * y - 1)) := by field_simp
    rw [e1]
    field_simp

theorem mppf_mcdf (x : ℚ) : mppf (mcdf x) = x := by
  have hpos : (0 : ℚ) < 1 + |x| := by positivity
  have hne : (1 + |x|) ≠ 0 := ne_of_gt hpos
  unfold mppf mcdf
  rw [show 2 * (1/2 + x / (2 * (1 + |x|))) - 1 = x / (1 + |x|) from by
    field_simp; ring]
  rw [abs_div, abs_of_pos hpos]
  rw [show (1 : ℚ) - |x| / (1 + |x|) = 1 / (1 + |x|) from by field_simp]
  field_simp

/-! ## Claim theorems -/

/-- C1 (counterexample): the claim says `order_stat_TI_n` returns the
minimum n with `EPTI(n) ≥ c` and `EPTI(n-1) < c`.  At
`k=1, p=1/2, c=3/4, nmax=10`, 1-sided, the function returns 3, yet
`EPTI(2) = 3/4 ≥ c` and `EPTI(1) = 1/2 < c`, so the minimum satisfying the
claimed characterisation is 2, and moreover `EPTI(3-1) = c` is not `< c`. -/
theorem C1_cex :
    order_stat_TI_n 1 (1/2) (3/4) 10 "1-sided" = .ok (some 3) ∧
    EPTI 2 0 (2 + 1 - 1) (1/2) = .ok (3/4) ∧ (3/4 : ℚ) ≤ 3/4 ∧
    EPTI 1 0 (1 + 1 - 1) (1/2) = .ok (1/2) ∧ (1/2 : ℚ) < 3/4 ∧
    (2 : ℤ) < 3 := by
  with_unfolding_all decide

/-- C1 (amended): a successful `order_stat_TI_n` run returns an
`m ∈ [1, nmax]` with `EPTI(m) ≥ c`, and when `m ≥ 3` also
`EPTI(m-1) ≤ c`; the claimed strict threshold (`EPTI(m-1) < c`, and
minimality over all of `[1, nmax]`) fails when `EPTI` hits `c` exactly or
when `n = 1` is already feasible, because the loop never tests `n = 1` and
twice uses a non-strict comparison against `c`. -/
theorem C1_amended {k nmax m l : ℤ} {p c : ℚ} {bound : String}
    (hl : TI_lsel k bound = some l)
    (hm : order_stat_TI_n k p c nmax bound = .ok (some m)) :
    1 ≤ m ∧ m ≤ nmax ∧
    (∃ v, EPTI m l (m + 1 - k) p = .ok v ∧ c ≤ v) ∧
    (m ≤ 2 ∨ ∃ v, EPTI (m - 1) l (m - 1 + 1 - k) p = .ok v ∧ v ≤ c) := by
  obtain ⟨_, _, _, _, _, _, h7, h8, h9, h10⟩ := TI_n_ok_inv hl hm
  exact ⟨h7, h8, h9, h10⟩

/-- Witness for C1 (amended) at the concrete run
`order_stat_TI_n(k=1, p=1/2, c=1/2, nmax=5)`, 1-sided, which returns 2. -/
theorem C1_amended_witness :
    order_stat_TI_n 1 (1/2) (1/2) 5 "1-sided" = .ok (some 2) ∧
    (1 : ℤ) ≤ 2 ∧ (2 : ℤ) ≤ 5 := by
  have hrun : order_stat_TI_n 1 (1/2) (1/2) 5 "1-sided" = .ok (some 2) := by
    with_unfolding_all decide
  have h := C1_amended
    (show TI_lsel 1 "1-sided" = some 0 by with_unfolding_all decide) hrun
  exact ⟨hrun, h.1, h.2.1⟩

/-- C2: the literal scenario
`order_stat_TI_n(k=2, p=0.99, c=0.90, bound=2-sided) = 667`, verified in
exact rational arithmetic through all 23 bisection decisions. -/
theorem C2_literal :
    order_stat_TI_n 2 (99/100) (9/10) 10000000 "2-sided" = .ok (some 667) :=
  C2_main

/-- C3: whenever `order_stat_TI_n(k, p, c, nmax, bound)` returns a numeric
sample size m, `order_stat_TI_c(m, k, p, bound)` evaluates to a confidence
at or above the requested c. -/
theorem C3_main {k nmax m : ℤ} {p c : ℚ} {bound : String} {l : ℤ}
    (hl : TI_lsel k bound = some l)
    (hm : order_stat_TI_n k p c nmax bound = .ok (some m)) :
    ∃ v, order_stat_TI_c m k p bound = .ok v ∧ c ≤ v := by
  obtain ⟨hp0, hp1, hk, _, _, _, hm1, _, ⟨v, hE, hv⟩, _⟩ := TI_n_ok_inv hl hm
  refine ⟨v, ?_, hv⟩
  unfold order_stat_TI_c
  simp only [var_check_npk_ok hm1 hp0 hp1 hk, hl]
  exact hE

/-- Witness for C3 at `order_stat_TI_n(1, 1/2, 1/2, 5)`, 1-sided. -/
theorem C3_witness :
    order_stat_TI_n 1 (1/2) (1/2) 5 "1-sided" = .ok (some 2) ∧
    order_stat_TI_c 2 1 (1/2) "1-sided" = .ok (3/4) ∧ (1/2 : ℚ) ≤ 3/4 := by
  have hrun : order_stat_TI_n 1 (1/2) (1/2) 5 "1-sided" = .ok (some 2) := by
    with_unfolding_all decide
  obtain ⟨v, hc, hv⟩ := C3_main
    (show TI_lsel 1 "1-sided" = some 0 by with_unfolding_all decide) hrun
  have hcv : order_stat_TI_c 2 1 (1/2) "1-sided" = .ok (3/4) := by
    with_unfolding_all decide
  have hveq : v = 3/4 := by
    have h2 : Except.ok (ε := String) v = .ok (3/4 : ℚ) := hc.symm.trans hcv
    simpa using h2
  exact ⟨hrun, hcv, hveq ▸ hv⟩

/-- C4 (counterexample): the claim says the value returned by
`order_stat_TI_p` satisfies `EPTI ≥ c` up to a perturbation of at most
`ptol`.  At `n=1, k=1, c=9/10, ptol=1/4`, 1-sided, the function returns
`1/2`, but `EPTI(1, 0, 1, p) = 1 - p < 9/10` for every `p ≥ 1/4`; in
particular at `1/2 - ptol`, `1/2` and `1/2 + ptol` (and, `EPTI` being
antitone in p, everywhere in between and above). -/
theorem C4_cex :
    order_stat_TI_p 1 1 (9/10) (1/4) "1-sided" = .ok (1/2) ∧
    EPTIval 1 0 (1 + 1 - 1) (1/4) < 9/10 ∧
    EPTIval 1 0 (1 + 1 - 1) (1/2) < 9/10 ∧
    EPTIval 1 0 (1 + 1 - 1) (3/4) < 9/10 := by
  with_unfolding_all decide

/-- C4 (amended): `order_stat_TI_p` returns the upper end `r` of the final
bisection bracket: `EPTI(r) < c` unless `r = 1`; some `q` within `2*ptol`
below `r` (namely the lower bracket, possibly the never-tested `0`)
satisfies `EPTI(q) ≥ c`; and, `EPTI` being antitone in p, no `p ≥ r`
achieves `EPTI ≥ c` (unless `r = 1`).  The guaranteed accuracy is `2*ptol`,
not the claimed `ptol`, and the returned point itself sits on the
infeasible side of the threshold. -/
theorem C4_amended {n k : ℤ} {c ptol r : ℚ} {bound : String} {l : ℤ}
    (hl : TI_lsel k bound = some l)
    (hm : order_stat_TI_p n k c ptol bound = .ok r) :
    (r = 1 ∨ ∃ v, EPTI n l (n + 1 - k) r = .ok v ∧ v < c) ∧
    (∃ q, 0 ≤ q ∧ q < r ∧ r - q ≤ 2 * ptol ∧
      (q = 0 ∨ ∃ v, EPTI n l (n + 1 - k) q = .ok v ∧ c ≤ v)) ∧
    (r = 1 ∨ ∀ q, r ≤ q → q ≤ 1 → EPTIval n l (n + 1 - k) q < c) := by
  obtain ⟨hn, hk, hc0, hc1, hA, hB⟩ := TI_p_ok_inv hl hm
  refine ⟨hA, hB, ?_⟩
  rcases hA with h1 | ⟨v, hE, hv⟩
  · exact Or.inl h1
  · right
    intro q hrq hq1
    obtain ⟨hval, _, _, _, _, hr0, _⟩ := EPTI_ok_inv hE
    have h2 : EPTIval n l (n + 1 - k) q ≤ EPTIval n l (n + 1 - k) r := by
      unfold EPTIval
      exact binomCDF_anti_p _ _ (le_of_lt hr0) hrq hq1
    rw [← hval] at h2
    exact lt_of_le_of_lt h2 hv

/-- Witness for C4 (amended) at the run of the counterexample input. -/
theorem C4_amended_witness :
    order_stat_TI_p 1 1 (9/10) (1/4) "1-sided" = .ok (1/2) ∧
    (1/2 : ℚ) < 9/10 := by
  have hrun : order_stat_TI_p 1 1 (9/10) (1/4) "1-sided" = .ok (1/2) := by
    with_unfolding_all decide
  have h := C4_amended
    (show TI_lsel 1 "1-sided" = some 0 by with_unfolding_all decide) hrun
  rcases h.1 with h1 | ⟨v, hE, hv⟩
  · exact absurd h1 (by norm_num)
  · have hEd : EPTI 1 0 (1 + 1 - 1) ((1 : ℚ)/2) = .ok (1/2) := by
      with_unfolding_all decide
    have hveq : v = 1/2 := by
      have h2 : Except.ok (ε := String) v = .ok (1/2 : ℚ) := hE.symm.trans hEd
      simpa using h2
    exact ⟨hrun, hveq ▸ hv⟩

/-- C5 (counterexample): the claim says `order_stat_P_n` returns the
minimum `n ≥ nmin` with `EPYP ≥ c` (indices re-derived at each n).  At
`k=2, P=1/2, c=1/2, nmax=10`, 2-sided, `nmin = 3` and the loop convention
gives `(l,u) = (0,4)` at `n = 3` with `EPYP(3,0,4,1/2) = 1 ≥ c`, yet the
function returns 9: it searches for the upper end of the feasible region,
not the minimum. -/
theorem C5_cex :
    order_stat_P_n 2 (1/2) (1/2) 10 "2-sided" = .ok (some 9) ∧
    P_n_nmin 2 (1/2) = 3 ∧
    P_lu 3 2 (1/2) "2-sided" = some (0, 4) ∧
    EPYP 3 0 4 (1/2) = .ok 1 ∧ (1/2 : ℚ) ≤ 1 ∧ (3 : ℤ) < 9 := by
  with_unfolding_all decide

/-- C5 (amended): a successful `order_stat_P_n` run returns an
`m ≥ nmin = ceil(max(k/P-1, k/(1-P)-1))` that sits at the upper
feasibility threshold: unless `m = nmin`, the loop-convention coverage
`EPYP(m, iPl-k, iPu+k, P)` (re-derived from `get_iP(m, P)`) strictly
exceeds c, and some candidate `n1 ≤ m+1` is either the never-tested `nmax`
or has coverage `≤ c`.  The returned value is a maximal feasible n, not
the minimum; the pre-check at `nmin` uses the `±(k-1)` offsets while the
loop uses `±k`. -/
theorem C5_amended {k nmax m : ℤ} {P c : ℚ} {bound : String}
    (hm : order_stat_P_n k P c nmax bound = .ok (some m)) :
    P_n_nmin k P ≤ m ∧
    (m = P_n_nmin k P ∨ ∃ lu v, P_lu m k P bound = some lu ∧
      EPYP m lu.1 lu.2 P = .ok v ∧ c < v) ∧
    (∃ n1, n1 ≤ m + 1 ∧ (n1 = nmax ∨ ∃ lu v, P_lu n1 k P bound = some lu ∧
      EPYP n1 lu.1 lu.2 P = .ok v ∧ v ≤ c)) := by
  obtain ⟨_, _, _, _, _, _, h7, h8, h9⟩ := P_n_ok_inv hm
  exact ⟨h7, h8, h9⟩

/-- Witness for C5 (amended) at `order_stat_P_n(2, 1/2, 1/2, 10)`,
2-sided, which returns 9. -/
theorem C5_amended_witness :
    order_stat_P_n 2 (1/2) (1/2) 10 "2-sided" = .ok (some 9) ∧
    P_n_nmin 2 (1/2) ≤ 9 := by
  have hrun : order_stat_P_n 2 (1/2) (1/2) 10 "2-sided" = .ok (some 9) := by
    with_unfolding_all decide
  exact ⟨hrun, (C5_amended hrun).1⟩

/-- C6: on an infeasible request both `order_stat_TI_n` (coverage at
`nmax` below c) and `order_stat_TI_k` (coverage below c even at the
widest interval, the pre-check with `l = 1` or `0` and `u = n`) return the
explicit `None` sentinel — not an exception, and not a numeric value. -/
theorem C6_main {k n nmax l l0 : ℤ} {p c v w : ℚ} {bTIn bTIk : String}
    (hp0 : 0 < p) (hp1 : p < 1) (hk : 1 ≤ k) (hc0 : 0 < c) (hc1 : c < 1)
    (hnmax : 1 ≤ nmax) (hn : 1 ≤ n)
    (hlsel : TI_lsel k bTIn = some l)
    (hE : EPTI nmax l (nmax + 1 - k) p = .ok v) (hv : v < c)
    (hlsel2 : TIk_lsel bTIk = some l0)
    (hE2 : EPTI n l0 n p = .ok w) (hw : w < c) :
    order_stat_TI_n k p c nmax bTIn = .ok none ∧
    order_stat_TI_k n p c bTIk = .ok none := by
  constructor
  · unfold order_stat_TI_n
    simp only [var_check_pkcn_ok hp0 hp1 hk hc0 hc1 hnmax, hlsel, hE]
    rw [if_pos hv]
  · unfold order_stat_TI_k
    simp only [var_check_npc_ok hn hp0 hp1 hc0 hc1, hlsel2, hE2]
    rw [if_pos hw]

/-- Witness for C6: `order_stat_TI_n(1, 1/2, 3/4, nmax=1)` and
`order_stat_TI_k(1, 1/2, 3/4)`, both 1-sided, are infeasible
(`EPTI(1,0,1,1/2) = 1/2 < 3/4`) and both return the sentinel. -/
theorem C6_witness :
    order_stat_TI_n 1 (1/2) (3/4) 1 "1-sided" = .ok none ∧
    order_stat_TI_k 1 (1/2) (3/4) "1-sided" = .ok none :=
  C6_main (by norm_num) (by norm_num) (by norm_num) (by norm_num)
    (by norm_num) (by norm_num) (by norm_num)
    (show TI_lsel 1 "1-sided" = some 0 by with_unfolding_all decide)
    (show EPTI 1 0 (1 + 1 - 1) (1/2) = .ok (1/2) by with_unfolding_all decide)
    (by norm_num)
    (show TIk_lsel "1-sided" = some 0 by with_unfolding_all decide)
    (show EPTI 1 0 1 (1/2) = .ok (1/2) by with_unfolding_all decide)
    (by norm_num)

/-- C7: `order_stat_P_c` raises the input error exactly when the derived
rank pair `(l, u)` leaves the valid range `0 ≤ l` and `u ≤ n+1`
(the code and its error message read `(0, n+1)` as the pair of inclusive
bounds), and otherwise returns `EPYP(n, l, u, P)` unclamped. -/
theorem C7_main {n k : ℤ} {P : ℚ} {bound : String} {l u : ℤ}
    (hn : 1 ≤ n) (hk : 1 ≤ k) (hP0 : 0 < P) (hP1 : P < 1)
    (hlu : P_lu n k P bound = some (l, u)) :
    ((l < 0 ∨ n + 1 < u) → order_stat_P_c n k P bound =
      .error "l or u are outside the valid bounds of (0, n+1)") ∧
    (0 ≤ l → u ≤ n + 1 → order_stat_P_c n k P bound = EPYP n l u P) := by
  unfold order_stat_P_c
  simp only [var_check_npk_ok hn hP0 hP1 hk, hlu]
  constructor
  · intro h
    rw [if_pos h]
  · intro h1 h2
    rw [if_neg (by rintro (h | h) <;> omega)]

/-- Witness for C7 at `n=10, k=3, P=1/2`, 2-sided, where the derived pair
is `(2, 9)`, inside the valid range. -/
theorem C7_witness :
    order_stat_P_c 10 3 (1/2) "2-sided" = EPYP 10 2 9 (1/2) :=
  (C7_main (by norm_num) (by norm_num) (by norm_num) (by norm_num)
    (show P_lu 10 3 (1/2) "2-sided" = some (2, 9) by
      with_unfolding_all decide)).2 (by norm_num) (by norm_num)

/-- C8 (counterexample): the claim says every engine function raises an
input error on an unrecognised bound selector.  `pct2sig` does not: with a
valid probability and the unknown bound string it falls off the end of its
body and silently returns the `None` sentinel. -/
theorem C8_cex : pct2sig mppf (1/2) "3-sided" = .ok none := by
  with_unfolding_all decide

theorem TI_p_loop_done (n : ℤ) (lopt : Option ℤ) (u : ℤ) (c ptol : ℚ)
    (f : ℕ) (p0 p1 : ℚ) (h : (p1 - p0) / 2 ≤ ptol) :
    TI_p_loop n lopt u c ptol (f + 1) p0 p1 = .ok p1 := by
  simp only [TI_p_loop]
  rw [if_pos h]

theorem P_n_loop_done (k : ℤ) (P c : ℚ) (bound : String) (f : ℕ)
    (n0 n1 : ℤ) (h : ((n1 - n0 : ℤ) : ℚ) / 2 < 1) :
    P_n_loop k P c bound (f + 1) n0 n1 = .ok (some n0) := by
  simp only [P_n_loop]
  rw [if_pos h]

/-- C8 (amended): supplying a bound outside the variant's valid set is not
uniformly an input error.  `pct2sig` validates p and then silently returns
`None`.  `sig2pct`, `order_stat_TI_n`, `order_stat_TI_k`,
`order_stat_TI_c`, `order_stat_P_k` and `order_stat_P_c` always raise (an
unbound-local error at the first use of the never-assigned variable when
validation passes, or the validation error otherwise).  `order_stat_TI_p`
and `order_stat_P_n` raise only when the bisection loop reaches its first
coverage evaluation: `order_stat_TI_p` returns `1` without raising when
`ptol ≥ 1/2` (the first half-step is already within tolerance), and
`order_stat_P_n` returns `nmin` without raising when `nmax ≤ nmin + 1`. -/
theorem C8_amended {bound : String} (ppf cdf : ℚ → ℚ)
    (hb1 : bound ≠ "2-sided") (hb2 : bound ≠ "1-sided")
    (hb3 : bound ≠ "1-sided upper") (hb4 : bound ≠ "1-sided lower") :
    (∀ p : ℚ, 0 < p → p < 1 → pct2sig ppf p bound = .ok none) ∧
    (∀ s : ℚ, sig2pct cdf s bound = .error "UnboundLocalError: p") ∧
    (∀ (k nmax : ℤ) (p c : ℚ),
      ∃ e, order_stat_TI_n k p c nmax bound = .error e) ∧
    (∀ (n : ℤ) (p c : ℚ), ∃ e, order_stat_TI_k n p c bound = .error e) ∧
    (∀ (n k : ℤ) (p : ℚ), ∃ e, order_stat_TI_c n k p bound = .error e) ∧
    (∀ (n : ℤ) (P c : ℚ), ∃ e, order_stat_P_k n P c bound = .error e) ∧
    (∀ (n k : ℤ) (P : ℚ), ∃ e, order_stat_P_c n k P bound = .error e) ∧
    (∀ (n k : ℤ) (c ptol : ℚ), ptol < 1/2 →
      ∃ e, order_stat_TI_p n k c ptol bound = .error e) ∧
    (∀ (n k : ℤ) (c ptol : ℚ),
      order_stat_var_check (some n) none none none (some k) (some c) none =
        .ok () →
      1/2 ≤ ptol → order_stat_TI_p n k c ptol bound = .ok 1) ∧
    (∀ (k nmax : ℤ) (P c : ℚ),
      order_stat_var_check none none none (some P) (some k) (some c)
        (some nmax) = .ok () →
      nmax ≤ P_n_nmin k P + 1 →
      order_stat_P_n k P c nmax bound = .ok (some (P_n_nmin k P))) ∧
    (∀ (k nmax : ℤ) (P c : ℚ), P_n_nmin k P + 2 ≤ nmax →
      ∃ e, order_stat_P_n k P c nmax bound = .error e) := by
  have hTl : ∀ k : ℤ, TI_lsel k bound = none := by
    intro k
    unfold TI_lsel
    rw [if_neg hb1, if_neg hb2]
  have hTk : TIk_lsel bound = none := by
    unfold TIk_lsel
    rw [if_neg hb1, if_neg hb2]
  refine ⟨?_, ?_, ?_, ?_, ?_, ?_, ?_, ?_, ?_, ?_, ?_⟩
  · intro p hp0 hp1
    unfold pct2sig
    rw [if_neg (by rintro (h | h) <;> linarith), if_neg hb1, if_neg hb2]
  · intro s
    unfold sig2pct
    rw [if_neg hb1, if_neg hb2]
  · intro k nmax p c
    unfold order_stat_TI_n
    cases hchk : order_stat_var_check none none none (some p) (some k)
        (some c) (some nmax) with
    | error e =>
      simp only [hchk]
      exact ⟨e, rfl⟩
    | ok u0 =>
      cases u0
      simp only [hchk, hTl k]
      exact ⟨_, rfl⟩
  · intro n p c
    unfold order_stat_TI_k
    cases hchk : order_stat_var_check (some n) none none (some p) none
        (some c) none with
    | error e =>
      simp only [hchk]
      exact ⟨e, rfl⟩
    | ok u0 =>
      cases u0
      simp only [hchk, hTk]
      exact ⟨_, rfl⟩
  · intro n k p
    unfold order_stat_TI_c
    cases hchk : order_stat_var_check (some n) none none (some p) (some k)
        none none with
    | error e =>
      simp only [hchk]
      exact ⟨e, rfl⟩
    | ok u0 =>
      cases u0
      simp only [hchk, hTl k]
      exact ⟨_, rfl⟩
  · intro n P c
    unfold order_stat_P_k
    cases hchk : order_stat_var_check (some n) none none (some P) none
        (some c) none with
    | error e =>
      simp only [hchk]
      exact ⟨e, rfl⟩
    | ok u0 =>
      cases u0
      simp only [hchk]
      rw [if_neg hb1, if_neg hb3, if_neg hb4]
      exact ⟨_, rfl⟩
  · intro n k P
    unfold order_stat_P_c
    cases hchk : order_stat_var_check (some n) none none (some P) (some k)
        none none with
    | error e =>
      simp only [hchk]
      exact ⟨e, rfl⟩
    | ok u0 =>
      cases u0
      simp only [hchk, P_lu_none hb1 hb3 hb4]
      exact ⟨_, rfl⟩
  · intro n k c ptol hpt
    unfold order_stat_TI_p
    cases hchk : order_stat_var_check (some n) none none none (some k)
        (some c) none with
    | error e =>
      simp only [hchk]
      exact ⟨e, rfl⟩
    | ok u0 =>
      cases u0
      simp only [hchk, hTl k]
      rw [show (1000 : ℕ) = 999 + 1 from rfl]
      exact ⟨_, TI_p_loop_none n (n + 1 - k) c ptol 999 0 1 (by
        rw [show ((1 : ℚ) - 0) / 2 = 1/2 from by norm_num]
        exact not_le.mpr hpt)⟩
  · intro n k c ptol hchk hpt
    unfold order_stat_TI_p
    simp only [hchk]
    rw [show (1000 : ℕ) = 999 + 1 from rfl]
    exact TI_p_loop_done n (TI_lsel k bound) (n + 1 - k) c ptol 999 0 1 (by
      rw [show ((1 : ℚ) - 0) / 2 = 1/2 from by norm_num]
      exact hpt)
  · intro k nmax P c hchk hle
    unfold order_stat_P_n
    simp only [hchk]
    rw [if_neg hb1, if_neg hb3, if_neg hb4]
    rw [show (1000 : ℕ) = 999 + 1 from rfl]
    exact P_n_loop_done k P c bound 999 (P_n_nmin k P) nmax (by
      have h1 : ((nmax - P_n_nmin k P : ℤ) : ℚ) ≤ 1 := by
        exact_mod_cast (by omega : (nmax - P_n_nmin k P : ℤ) ≤ 1)
      linarith)
  · intro k nmax P c hgap
    unfold order_stat_P_n
    cases hchk : order_stat_var_check none none none (some P) (some k)
        (some c) (some nmax) with
    | error e =>
      simp only [hchk]
      exact ⟨e, rfl⟩
    | ok u0 =>
      cases u0
      simp only [hchk]
      rw [if_neg hb1, if_neg hb3, if_neg hb4]
      rw [show (1000 : ℕ) = 999 + 1 from rfl]
      exact ⟨_, P_n_loop_none k P c bound 999 (P_n_nmin k P) nmax (by
        rw [not_lt, le_div_iff (by norm_num)]
        have h2 : (2 : ℚ) ≤ ((nmax - P_n_nmin k P : ℤ) : ℚ) := by
          exact_mod_cast (by omega : (2 : ℤ) ≤ nmax - P_n_nmin k P)
        linarith) hb1 hb3 hb4⟩

/-- Witness for C8 (amended) at the bound string "3-sided", exercising in
particular the two no-raise cases: `order_stat_TI_p` with `ptol = 3/5`
returns 1 and `order_stat_P_n` with `nmax = 1 = nmin` returns 1. -/
theorem C8_amended_witness :
    pct2sig mppf (1/2) "3-sided" = .ok none ∧
    sig2pct mcdf 0 "3-sided" = .error "UnboundLocalError: p" ∧
    order_stat_TI_p 2 1 (1/2) (3/5) "3-sided" = .ok 1 ∧
    order_stat_P_n 1 (1/2) (1/2) 1 "3-sided" = .ok (some 1) := by
  have h := @C8_amended "3-sided" mppf mcdf
    (by with_unfolding_all decide) (by with_unfolding_all decide)
    (by with_unfolding_all decide) (by with_unfolding_all decide)
  refine ⟨h.1 (1/2) (by norm_num) (by norm_num), h.2.1 0, ?_, ?_⟩
  · exact h.2.2.2.2.2.2.2.2.1 2 1 (1/2) (3/5)
      (by with_unfolding_all decide) (by norm_num)
  · have h2 := h.2.2.2.2.2.2.2.2.2.1 1 1 (1/2) (1/2)
      (by with_unfolding_all decide) (by with_unfolding_all decide)
    rwa [show P_n_nmin 1 (1/2) = 1 from by with_unfolding_all decide] at h2

/-- C9 (counterexample): the claim says `pct2sig` and `sig2pct` are mutual
inverses for both bound types on all of (0,1).  With the exact model pair
`mcdf`/`mppf` (any exact CDF-quantile pair gives the same algebra), the
two-sided round trip at `p = 1/4 < 1/2` returns `p - 1 = -3/4`, not `p`. -/
theorem C9_cex :
    pct2sig mppf (1/4) "2-sided" = .ok (some (-3)) ∧
    sig2pct mcdf (-3) "2-sided" = .ok (-(3/4)) ∧
    ¬((-(3/4) : ℚ) = 1/4) := by
  with_unfolding_all decide

/-- C9 (amended): with `cdf` and `ppf` exact mutual inverses mapping onto
(0,1), the one-sided round trips hold in both directions for all valid
inputs; the two-sided p-direction round trip holds exactly on `p ≥ 1/2`
and returns `p - 1` for `p < 1/2` (the lower-tail branch of `pct2sig` is
not inverted by `sig2pct`); the two-sided sigma-direction round trip holds
whenever `cdf sig ≥ 3/4` (so that the reconstructed p lands back in the
`p ≥ 1/2` branch). -/
theorem C9_amended (cdf ppf : ℚ → ℚ)
    (hinv1 : ∀ q, 0 < q → q < 1 → cdf (ppf q) = q)
    (hinv2 : ∀ x, ppf (cdf x) = x)
    (hrange : ∀ x, 0 < cdf x ∧ cdf x < 1)
    (p sig : ℚ) (hp0 : 0 < p) (hp1 : p < 1) :
    (pct2sig ppf p "1-sided" = .ok (some (ppf p)) ∧
      sig2pct cdf (ppf p) "1-sided" = .ok p) ∧
    (sig2pct cdf sig "1-sided" = .ok (cdf sig) ∧
      pct2sig ppf (cdf sig) "1-sided" = .ok (some sig)) ∧
    (1/2 ≤ p → pct2sig ppf p "2-sided" = .ok (some (ppf (1 - (1 - p) / 2))) ∧
      sig2pct cdf (ppf (1 - (1 - p) / 2)) "2-sided" = .ok p) ∧
    (p < 1/2 → pct2sig ppf p "2-sided" = .ok (some (ppf (p / 2))) ∧
      sig2pct cdf (ppf (p / 2)) "2-sided" = .ok (p - 1)) ∧
    (3/4 ≤ cdf sig → sig2pct cdf sig "2-sided" = .ok (2 * cdf sig - 1) ∧
      pct2sig ppf (2 * cdf sig - 1) "2-sided" = .ok (some sig)) := by
  have hval : ¬(p ≤ 0 ∨ 1 ≤ p) := by rintro (h | h) <;> linarith
  have hone : ¬(("1-sided" : String) = "2-sided") := by decide
  refine ⟨⟨?_, ?_⟩, ⟨?_, ?_⟩, ?_, ?_, ?_⟩
  · unfold pct2sig
    rw [if_neg hval, if_neg hone, if_pos rfl]
  · unfold sig2pct
    rw [if_neg hone, if_pos rfl, hinv1 p hp0 hp1]
  · unfold sig2pct
    rw [if_neg hone, if_pos rfl]
  · unfold pct2sig
    rcases hrange sig with ⟨ha, hb⟩
    rw [if_neg (by rintro (h | h) <;> linarith), if_neg hone, if_pos rfl,
      hinv2 sig]
  · intro hhalf
    constructor
    · unfold pct2sig
      rw [if_neg hval, if_pos rfl, if_pos hhalf]
    · unfold sig2pct
      rw [if_pos rfl, hinv1 (1 - (1 - p) / 2) (by linarith) (by linarith)]
      congr 1
      ring
  · intro hhalf
    constructor
    · unfold pct2sig
      rw [if_neg hval, if_pos rfl, if_neg (not_le.mpr hhalf)]
    · unfold sig2pct
      rw [if_pos rfl, hinv1 (p / 2) (by linarith) (by linarith)]
      congr 1
      ring
  · intro h34
    rcases hrange sig with ⟨ha, hb⟩
    constructor
    · unfold sig2pct
      rw [if_pos rfl]
      congr 1
      ring
    · unfold pct2sig
      rw [if_neg (by rintro (h | h) <;> linarith), if_pos rfl,
        if_pos (by linarith),
        show (1 : ℚ) - (1 - (2 * cdf sig - 1)) / 2 = cdf sig from by ring,
        hinv2 sig]

/-- Witness for C9 (amended): the model pair at `p = 3/4`, `sig = 3`
(the one-sided sigma-direction round trip). -/
theorem C9_amended_witness :
    sig2pct mcdf 3 "1-sided" = .ok (mcdf 3) ∧
    pct2sig mppf (mcdf 3) "1-sided" = .ok (some 3) :=
  (C9_amended mcdf mppf (fun _ h0 h1 => mcdf_mppf h0 h1) mppf_mcdf
    (fun x => ⟨mcdf_pos x, mcdf_lt_one x⟩) (3/4) 3 (by norm_num)
    (by norm_num)).2.1

/-- C10: for `sig ≤ 0` (so that `cdf sig ≤ cdf 0 = 1/2`), the two-sided
`sig2pct` returns `2*cdf(sig) - 1 ≤ 0`, which lies outside the open
proportion domain, and feeding it back into `pct2sig` raises the
invalid-input error instead of recovering sig. -/
theorem C10_main (cdf ppf : ℚ → ℚ) (sig : ℚ) (hmono : Monotone cdf)
    (hzero : cdf 0 = 1/2) (hsig : sig ≤ 0) :
    sig2pct cdf sig "2-sided" = .ok (2 * cdf sig - 1) ∧
    2 * cdf sig - 1 ≤ 0 ∧
    pct2sig ppf (2 * cdf sig - 1) "2-sided" =
      .error "p must be 0 < p < 1" := by
  have hle : cdf sig ≤ 1/2 := hzero ▸ hmono hsig
  refine ⟨?_, by linarith, ?_⟩
  · unfold sig2pct
    rw [if_pos rfl]
    congr 1
    ring
  · unfold pct2sig
    rw [if_pos (Or.inl (by linarith))]

/-- Witness for C10 with the model CDF at `sig = -1`. -/
theorem C10_witness :
    sig2pct mcdf (-1) "2-sided" = .ok (2 * mcdf (-1) - 1) ∧
    2 * mcdf (-1) - 1 ≤ 0 ∧
    pct2sig mppf (2 * mcdf (-1) - 1) "2-sided" =
      .error "p must be 0 < p < 1" :=
  C10_main mcdf mppf (-1) mcdf_mono (by with_unfolding_all decide)
    (by norm_num)

end Monaco
